import Mathlib

/-!
Shallow embedding of the Bisca card-game engine of `src/gameLogic.ts`.

A JavaScript string is modelled as its list of characters, so a card token
such as "AS" is the list `['A', 'S']`.  The `Math.random`-driven choices
(the shuffled deck inside `startGame` and the random trump pick) are inputs
of the embedded operations and are universally quantified in the theorems:
the shuffled deck ranges over the permutations of `createDeck` and the trump
index over the positions of the candidate list, exactly the values
`shuffleDeck` and `Math.floor(Math.random() * candidates.length)` can produce.
-/

/-- A card token: rank character(s) followed by a suit character, the
character-list model of the JavaScript string `value + suit`. -/
abbrev Card : Type := List Char

/-- `SUITS` of gameLogic.ts (each suit is a one-character string). -/
def SUITS : List (List Char) := [['S'], ['H'], ['D'], ['C']]

/-- `VALUES` of gameLogic.ts. -/
def VALUES : List (List Char) :=
  [['A'], ['2'], ['3'], ['4'], ['5'], ['6'], ['7'], ['J'], ['Q'], ['K']]

/-- `createDeck`: for each suit (outer loop) and each value (inner loop)
push `value + suit`. -/
def createDeck : List Card :=
  SUITS.flatMap (fun suit => VALUES.map (fun value => value ++ suit))

/-- `getCardValue`: `card.slice(0, -1)`, everything but the last character. -/
def getCardValue (card : Card) : List Char := card.dropLast

/-- `getCardSuit`: `card.slice(-1)`, the last character (as a string). -/
def getCardSuit (card : Card) : List Char := card.drop (card.length - 1)

/-- `getTrumpSuit`: identical to `getCardSuit` in the source. -/
def getTrumpSuit (card : Card) : List Char := card.drop (card.length - 1)

/-- `CARD_POINTS` lookup with `|| 0` fallback. -/
def getCardPoints (card : Card) : Nat :=
  match getCardValue card with
  | ['7'] => 11
  | ['A'] => 10
  | ['J'] => 3
  | ['Q'] => 2
  | ['K'] => 4
  | _ => 0

/-- `isMarriage(sevenCard, aceCard)`: same suit and the second card is an Ace. -/
def isMarriage (sevenCard aceCard : Card) : Prop :=
  getCardSuit sevenCard = getCardSuit aceCard ∧ getCardValue aceCard = ['A']

instance (a b : Card) : Decidable (isMarriage a b) := by
  unfold isMarriage; infer_instance

/-- `getCardOrder`: rank order A > 7 > K > J > Q > 6 > 5 > 4 > 3 > 2,
with `|| 0` fallback for unknown values. -/
def getCardOrder (value : List Char) : Nat :=
  match value with
  | ['A'] => 10
  | ['7'] => 9
  | ['K'] => 8
  | ['J'] => 7
  | ['Q'] => 6
  | ['6'] => 5
  | ['5'] => 4
  | ['4'] => 3
  | ['3'] => 2
  | ['2'] => 1
  | _ => 0

/-- `Player` of types.ts.  (The `chips: player.chips ?? 0` spread in
`startGame` writes a property that is not part of the declared `Player`
interface and is read nowhere in the engine, so it is not modelled.) -/
structure Player where
  id : String
  nickname : String
  hand : List Card
  score : Nat
  capturedCards : List Card
  deriving DecidableEq

instance : Inhabited Player := ⟨⟨"", "", [], 0, []⟩⟩

/-- `TablePlay` of types.ts. -/
structure TablePlay where
  playerId : String
  nickname : String
  card : Card
  deriving DecidableEq

instance : Inhabited TablePlay := ⟨⟨"", "", []⟩⟩

/-- `GameState` as constructed by `createGame`, including the runtime
fields (`lastTrickWinnerId`, …, the two boolean maps) that the engine
maintains beyond the declared interface of types.ts. -/
structure GameState where
  players : List Player
  table : List TablePlay
  turn : Nat
  trumpCard : Card
  deck : List Card
  roundNumber : Nat
  isGameStarted : Bool
  lastTrickWinnerId : Option String
  lastTrickCards : Option (List TablePlay)
  playedTrumpAByPlayerId : String → Bool
  capturedOppTrump7ByPlayerId : String → Bool

/-- `createGame()`. -/
def createGame : GameState :=
  { players := []
    table := []
    turn := 0
    trumpCard := []
    deck := []
    roundNumber := 0
    isGameStarted := false
    lastTrickWinnerId := none
    lastTrickCards := none
    playedTrumpAByPlayerId := fun _ => false
    capturedOppTrump7ByPlayerId := fun _ => false }

/-- One iteration of the `determineRoundWinner` loop body: given the trump
suit, the lead suit, the index `i` of the current card and the tracked
`(winner, highestCard)` pair, produce the updated pair. -/
def challenge (trumpSuit firstCardSuit : List Char) (i winner : Nat)
    (highestCard currentCard : Card) : Nat × Card :=
  let currentValue := getCardValue currentCard
  let highestValue := getCardValue highestCard
  if highestValue = ['7'] ∧ currentValue = ['A'] ∧ isMarriage highestCard currentCard then
    (i, currentCard)
  else if currentValue = ['7'] ∧ highestValue = ['A'] ∧ isMarriage currentCard highestCard then
    (winner, highestCard)
  else
    let currentSuit := getCardSuit currentCard
    let highestSuit := getCardSuit highestCard
    if currentSuit = trumpSuit ∧ ¬highestSuit = trumpSuit then
      (i, currentCard)
    else if ¬currentSuit = trumpSuit ∧ highestSuit = trumpSuit then
      (winner, highestCard)
    else if currentSuit = trumpSuit ∧ highestSuit = trumpSuit then
      if getCardOrder highestValue < getCardOrder currentValue then
        (i, currentCard)
      else
        (winner, highestCard)
    else
      if currentSuit = firstCardSuit ∧ ¬highestSuit = firstCardSuit then
        (i, currentCard)
      else if currentSuit = firstCardSuit ∧ highestSuit = firstCardSuit then
        if getCardOrder highestValue < getCardOrder currentValue then
          (i, currentCard)
        else
          (winner, highestCard)
      else
        (winner, highestCard)

/-- The `for (let i = 1; …)` loop of `determineRoundWinner`, folding
`challenge` over the remaining cards. -/
def pickWinner (trumpSuit firstCardSuit : List Char) :
    List Card → Nat → Nat × Card → Nat × Card
  | [], _, acc => acc
  | c :: rest, i, (w, h) =>
      pickWinner trumpSuit firstCardSuit rest (i + 1)
        (challenge trumpSuit firstCardSuit i w h c)

/-- `determineRoundWinner`: `null` on an empty or incomplete table, else the
table index of the winning play. -/
def determineRoundWinner (game : GameState) : Option Nat :=
  match game.table with
  | [] => none
  | t0 :: rest =>
      if game.table.length < game.players.length then none
      else
        let trumpSuit := getTrumpSuit game.trumpCard
        let firstCardSuit := getCardSuit t0.card
        some (pickWinner trumpSuit firstCardSuit (rest.map (fun t => t.card)) 1 (0, t0.card)).1

/-- JavaScript `Array.prototype.findIndex`, with `none` standing for −1:
index of the first element satisfying the predicate. -/
def findIndexFrom {α : Type} (p : α → Bool) : List α → Nat → Option Nat
  | [], _ => none
  | x :: xs, i => if p x then some i else findIndexFrom p xs (i + 1)

/-- `findIndex` starting at position 0. -/
def jsFindIndex {α : Type} (p : α → Bool) (l : List α) : Option Nat :=
  findIndexFrom p l 0

/-- `playCard(game, playerId, card)`.  The JS guard
`playerIndex === -1 || playerIndex !== game.turn` is the `none` branch of
the `findIndex` match together with the `playerIndex ≠ game.turn` test
(`-1` can never equal the non-negative `turn`).  Both completing and
non-completing accepted plays build the same record, as in the source. -/
def playCard (game : GameState) (playerId : String) (card : Card) : GameState :=
  if game.isGameStarted = false then game
  else
    match jsFindIndex (fun p => p.id == playerId) game.players with
    | none => game
    | some playerIndex =>
      if playerIndex ≠ game.turn then game
      else
        let player := game.players.getD playerIndex default
        if card ∉ player.hand then game
        else if game.roundNumber = 1 ∧ game.table.length = 0 ∧
            (∃ c ∈ player.hand, getCardSuit c = getTrumpSuit game.trumpCard) ∧
            ¬getCardSuit card = getTrumpSuit game.trumpCard then game
        else if 0 < game.table.length ∧
            (∃ c ∈ player.hand, getCardSuit c = getCardSuit (game.table.getD 0 default).card) ∧
            ¬getCardSuit card = getCardSuit (game.table.getD 0 default).card then game
        else
          let newPlayers := game.players.map (fun p =>
            if p.id = playerId then { p with hand := p.hand.filter (fun c => c != card) } else p)
          let newTable := game.table ++ [{ playerId := playerId, nickname := player.nickname, card := card }]
          let trumpSuit := getTrumpSuit game.trumpCard
          let trumpA := ['A'] ++ trumpSuit
          let newPlayedTrumpA :=
            if card = trumpA then
              (fun k => if k = playerId then true else game.playedTrumpAByPlayerId k)
            else game.playedTrumpAByPlayerId
          if newTable.length = game.players.length then
            { game with players := newPlayers, table := newTable,
                        turn := (game.turn + 1) % game.players.length,
                        playedTrumpAByPlayerId := newPlayedTrumpA }
          else
            { game with players := newPlayers, table := newTable,
                        turn := (game.turn + 1) % game.players.length,
                        playedTrumpAByPlayerId := newPlayedTrumpA }

/-- The round-robin dealing loop of `startGame`:
`for i in 0..total-1: hands[i % n].push(deck[i])`. -/
def dealLoop (deck : List Card) (n total : Nat) : List (List Card) :=
  (List.range total).foldl
    (fun hands i => hands.set (i % n) (hands.getD (i % n) [] ++ [deck.getD i []]))
    (List.replicate n [])

/-- JavaScript `Array.prototype.map` with the index argument. -/
def mapWithIndexFrom {α β : Type} (f : Nat → α → β) : Nat → List α → List β
  | _, [] => []
  | i, x :: xs => f i x :: mapWithIndexFrom f (i + 1) xs

/-- `startGame(game)`, with the shuffled deck and the random trump position
as explicit inputs (see the module comment).  The source never removes the
trump from the deck; the trump is chosen from the union of the dealt hands
(`candidates`), falling back to `shuffled[0]` only if there are no
candidates. -/
def startGame (shuffled : List Card) (trumpIdx : Nat) (game : GameState) : GameState :=
  if game.players.length < 2 ∨ 4 < game.players.length then game
  else
    let deck := shuffled
    let numPlayers := game.players.length
    let cardsPerPlayer := 10
    let totalToDeal := numPlayers * cardsPerPlayer
    let hands := dealLoop deck numPlayers totalToDeal
    let newPlayers := mapWithIndexFrom
      (fun index player => { player with hand := hands.getD index [], score := 0, capturedCards := [] })
      0 game.players
    let remainingDeck := deck.drop totalToDeal
    let candidates := (newPlayers.map (fun p => p.hand)).flatten
    let chosenTrumpCard :=
      if 0 < candidates.length then candidates.getD trumpIdx []
      else shuffled.getD 0 []
    { game with players := newPlayers
                trumpCard := chosenTrumpCard
                deck := remainingDeck
                turn := 0
                roundNumber := 1
                isGameStarted := true
                table := [] }

/-- `resolveTrick(game)`.  The seat arithmetic is done on `Int` because the
JS subtractions can pass through negative intermediate values; all the
dividends of `%` are non-negative here, so JS `%` agrees with `Int.emod`. -/
def resolveTrick (game : GameState) : GameState :=
  if game.table.length ≠ game.players.length then game
  else
    match determineRoundWinner game with
    | none => game
    | some winnerIndex =>
      let playersCount : Int := game.players.length
      let lastPlayerIndex : Int := ((game.turn : Int) - 1 + playersCount) % playersCount
      let startingPlayerIndex : Int :=
        (lastPlayerIndex - (playersCount - 1) + playersCount) % playersCount
      let absoluteWinnerPlayerIndex : Int :=
        (startingPlayerIndex + (winnerIndex : Int)) % playersCount
      let winner := game.players.getD absoluteWinnerPlayerIndex.toNat default
      let capturedCards := game.table.map (fun play => play.card)
      let roundPoints := game.table.foldl (fun sum play => sum + getCardPoints play.card) 0
      let updatedPlayers := game.players.map (fun p =>
        if p.id = winner.id then
          { p with score := p.score + roundPoints,
                   capturedCards := p.capturedCards ++ capturedCards }
        else p)
      let trumpSuit := getTrumpSuit game.trumpCard
      let trump7 := ['7'] ++ trumpSuit
      let sevenPlay := game.table.find? (fun t => t.card == trump7)
      let newCapturedOpp7 :=
        match sevenPlay with
        | some sp =>
            if sp.playerId ≠ winner.id then
              (fun k => if k = winner.id then true else game.capturedOppTrump7ByPlayerId k)
            else game.capturedOppTrump7ByPlayerId
        | none => game.capturedOppTrump7ByPlayerId
      { game with players := updatedPlayers
                  table := []
                  turn := absoluteWinnerPlayerIndex.toNat
                  roundNumber := game.roundNumber + 1
                  lastTrickWinnerId := some winner.id
                  lastTrickCards := some game.table
                  capturedOppTrump7ByPlayerId := newCapturedOpp7 }

/-- All card tokens sitting in hands, on the table or in the undealt deck. -/
def coreCards (g : GameState) : List Card :=
  (g.players.map (fun p => p.hand)).flatten ++ g.table.map (fun t => t.card) ++ g.deck

/-- `coreCards` together with every player's captured pile. -/
def allCardsFull (g : GameState) : List Card :=
  coreCards g ++ (g.players.map (fun p => p.capturedCards)).flatten

/-- States reachable during a hand: a `startGame` on 2–4 players with
pairwise-distinct connection ids (§3 of the spec: `id` is unique within a
game), followed by any sequence of `playCard` / `resolveTrick` calls. -/
inductive Reachable : GameState → Prop where
  | start (g : GameState) (shuffled : List Card) (trumpIdx : Nat)
      (hperm : shuffled.Perm createDeck)
      (h2 : 2 ≤ g.players.length) (h4 : g.players.length ≤ 4)
      (hids : (g.players.map (fun p => p.id)).Nodup)
      (hidx : trumpIdx < g.players.length * 10) :
      Reachable (startGame shuffled trumpIdx g)
  | play (g : GameState) (pid : String) (card : Card) (hg : Reachable g) :
      Reachable (playCard g pid card)
  | resolve (g : GameState) (hg : Reachable g) : Reachable (resolveTrick g)

/-- Reachability under the caller discipline of §5 of the spec: `playCard`
is only invoked while the current trick is not yet full (a full trick is
handed to `resolveTrick` before any further play). -/
inductive ReachableD : GameState → Prop where
  | start (g : GameState) (shuffled : List Card) (trumpIdx : Nat)
      (hperm : shuffled.Perm createDeck)
      (h2 : 2 ≤ g.players.length) (h4 : g.players.length ≤ 4)
      (hids : (g.players.map (fun p => p.id)).Nodup)
      (hidx : trumpIdx < g.players.length * 10) :
      ReachableD (startGame shuffled trumpIdx g)
  | play (g : GameState) (pid : String) (card : Card) (hg : ReachableD g)
      (hlt : g.table.length < g.players.length) :
      ReachableD (playCard g pid card)
  | resolve (g : GameState) (hg : ReachableD g) : ReachableD (resolveTrick g)

/-! ### Concrete test fixtures

A two-player game driven through the engine with the identity shuffle
(`createDeck` itself, a permutation of itself) and trump index 0.  With the
suit-major deck, player "a" receives AS 3S 5S 7S QS AH 3H 5H 7H QH, player
"b" receives 2S 4S 6S JS KS 2H 4H 6H JH KH, the trump card is AS, and the
undealt deck keeps the 20 diamond/club cards. -/

def pAlice : Player := { id := "a", nickname := "alice", hand := [], score := 0, capturedCards := [] }

def pBob : Player := { id := "b", nickname := "bob", hand := [], score := 0, capturedCards := [] }

def g0 : GameState := { createGame with players := [pAlice, pBob] }

def gStart : GameState := startGame createDeck 0 g0

def gMid : GameState := playCard gStart "a" ['A', 'S']

def gFull : GameState := playCard gMid "b" ['2', 'S']

def gBad : GameState := resolveTrick gFull

def gOver : GameState := playCard gFull "a" ['3', 'S']

/-- Staged completed trick [7S by "a", AS by "b"] with 2 players and a
spade trump card. -/
def gC1a : GameState :=
  { createGame with
      players := [pAlice, pBob]
      isGameStarted := true
      trumpCard := ['K', 'S']
      table := [{ playerId := "a", nickname := "alice", card := ['7', 'S'] },
                { playerId := "b", nickname := "bob", card := ['A', 'S'] }] }

/-- Staged completed trick [AS by "a", 7S by "b"] with 2 players and a
spade trump card. -/
def gC1b : GameState :=
  { createGame with
      players := [pAlice, pBob]
      isGameStarted := true
      trumpCard := ['K', 'S']
      table := [{ playerId := "a", nickname := "alice", card := ['A', 'S'] },
                { playerId := "b", nickname := "bob", card := ['7', 'S'] }] }

/-- C1: on every 2-player state staging the completed trick consisting of
the trump-suit 7 and the trump-suit Ace (trump suit S), the marriage
override makes the Ace's play win: `[7S, AS]` resolves to table index 1 and
`[AS, 7S]` to table index 0, whoever holds the Ace. -/
theorem claim_C1 :
    (∀ (g : GameState) (pid0 n0 pid1 n1 : String),
      g.players.length = 2 →
      getTrumpSuit g.trumpCard = ['S'] →
      g.table = [{ playerId := pid0, nickname := n0, card := ['7', 'S'] },
                 { playerId := pid1, nickname := n1, card := ['A', 'S'] }] →
      determineRoundWinner g = some 1) ∧
    (∀ (g : GameState) (pid0 n0 pid1 n1 : String),
      g.players.length = 2 →
      getTrumpSuit g.trumpCard = ['S'] →
      g.table = [{ playerId := pid0, nickname := n0, card := ['A', 'S'] },
                 { playerId := pid1, nickname := n1, card := ['7', 'S'] }] →
      determineRoundWinner g = some 0) := by
  constructor
  · intro g pid0 n0 pid1 n1 hlen hts htable
    simp only [determineRoundWinner, htable, hlen]
    simp [pickWinner, challenge, isMarriage, getCardValue, getCardSuit]
  · intro g pid0 n0 pid1 n1 hlen hts htable
    simp only [determineRoundWinner, htable, hlen]
    simp [pickWinner, challenge, isMarriage, getCardValue, getCardSuit]

/-- C1 witness: both orders of the trump 7/Ace trick at concrete states. -/
theorem claim_C1_witness :
    determineRoundWinner gC1a = some 1 ∧ determineRoundWinner gC1b = some 0 :=
  ⟨claim_C1.1 gC1a "a" "alice" "b" "bob" rfl rfl rfl,
   claim_C1.2 gC1b "a" "alice" "b" "bob" rfl rfl rfl⟩

lemma pickWinner_nil (ts fs : List Char) (i : Nat) (acc : Nat × Card) :
    pickWinner ts fs [] i acc = acc := rfl

lemma pickWinner_cons (ts fs : List Char) (c : Card) (rest : List Card)
    (i w : Nat) (h : Card) :
    pickWinner ts fs (c :: rest) i (w, h) =
      pickWinner ts fs rest (i + 1) (challenge ts fs i w h c) := rfl

lemma challenge_cases (ts fs : List Char) (i w : Nat) (h c : Card) :
    challenge ts fs i w h c = (i, c) ∨ challenge ts fs i w h c = (w, h) := by
  unfold challenge
  dsimp only
  split_ifs <;> simp

lemma challenge_of_trump_new (ts fs : List Char) (i w : Nat) (h c : Card)
    (hc : getCardSuit c = ts) (hh : ¬getCardSuit h = ts) :
    challenge ts fs i w h c = (i, c) := by
  have hmar1 : ¬(getCardValue h = ['7'] ∧ getCardValue c = ['A'] ∧ isMarriage h c) := by
    rintro ⟨-, -, hs, -⟩
    exact hh (hs.trans hc)
  have hmar2 : ¬(getCardValue c = ['7'] ∧ getCardValue h = ['A'] ∧ isMarriage c h) := by
    rintro ⟨-, -, hs, -⟩
    exact hh (by rw [← hs]; exact hc)
  simp only [challenge]
  rw [if_neg hmar1, if_neg hmar2, if_pos ⟨hc, hh⟩]

lemma challenge_of_trump_keep (ts fs : List Char) (i w : Nat) (h c : Card)
    (hc : ¬getCardSuit c = ts) (hh : getCardSuit h = ts) :
    challenge ts fs i w h c = (w, h) := by
  have hmar1 : ¬(getCardValue h = ['7'] ∧ getCardValue c = ['A'] ∧ isMarriage h c) := by
    rintro ⟨-, -, hs, -⟩
    exact hc (by rw [← hs]; exact hh)
  have hmar2 : ¬(getCardValue c = ['7'] ∧ getCardValue h = ['A'] ∧ isMarriage c h) := by
    rintro ⟨-, -, hs, -⟩
    exact hc (hs.trans hh)
  simp only [challenge]
  rw [if_neg hmar1, if_neg hmar2, if_neg (fun hand => hc hand.1), if_pos ⟨hc, hh⟩]

lemma challenge_of_both_trump (ts fs : List Char) (i w : Nat) (h c : Card)
    (hc : getCardSuit c = ts) (hh : getCardSuit h = ts) :
    challenge ts fs i w h c =
      if getCardOrder (getCardValue h) < getCardOrder (getCardValue c)
      then (i, c) else (w, h) := by
  by_cases hm1 : getCardValue h = ['7'] ∧ getCardValue c = ['A'] ∧ isMarriage h c
  · have hord : getCardOrder (getCardValue h) < getCardOrder (getCardValue c) := by
      rw [hm1.1, hm1.2.1]; decide
    simp only [challenge]
    rw [if_pos hm1, if_pos hord]
  · by_cases hm2 : getCardValue c = ['7'] ∧ getCardValue h = ['A'] ∧ isMarriage c h
    · have hord : ¬getCardOrder (getCardValue h) < getCardOrder (getCardValue c) := by
        rw [hm2.1, hm2.2.1]; decide
      simp only [challenge]
      rw [if_neg hm1, if_pos hm2, if_neg hord]
    · simp only [challenge]
      rw [if_neg hm1, if_neg hm2, if_neg (fun hand => hand.2 hh),
          if_neg (fun hand => hand.1 hc), if_pos ⟨hc, hh⟩]

lemma pickWinner_trump (ts fs : List Char) :
    ∀ (rest : List Card) (i w : Nat) (h : Card),
      (getCardSuit h = ts ∨ ∃ c ∈ rest, getCardSuit c = ts) →
      getCardSuit (pickWinner ts fs rest i (w, h)).2 = ts ∧
      (getCardSuit h = ts →
        getCardOrder (getCardValue h) ≤
          getCardOrder (getCardValue (pickWinner ts fs rest i (w, h)).2)) ∧
      (∀ c ∈ rest, getCardSuit c = ts →
        getCardOrder (getCardValue c) ≤
          getCardOrder (getCardValue (pickWinner ts fs rest i (w, h)).2)) := by
  intro rest
  induction rest with
  | nil =>
      intro i w h hyp
      rcases hyp with hh | ⟨c, hc, -⟩
      · exact ⟨hh, fun _ => le_refl _, fun c hc => absurd hc (List.not_mem_nil c)⟩
      · exact absurd hc (List.not_mem_nil c)
  | cons c rest ih =>
      intro i w h hyp
      rw [pickWinner_cons]
      by_cases hc : getCardSuit c = ts
      · by_cases hh : getCardSuit h = ts
        · rw [challenge_of_both_trump ts fs i w h c hc hh]
          by_cases hord : getCardOrder (getCardValue h) < getCardOrder (getCardValue c)
          · rw [if_pos hord]
            obtain ⟨r1, r2, r3⟩ := ih (i + 1) i c (Or.inl hc)
            refine ⟨r1, fun _ => le_trans (le_of_lt hord) (r2 hc), ?_⟩
            intro x hx hxs
            rcases List.mem_cons.mp hx with rfl | hx'
            · exact r2 hc
            · exact r3 x hx' hxs
          · rw [if_neg hord]
            obtain ⟨r1, r2, r3⟩ := ih (i + 1) w h (Or.inl hh)
            refine ⟨r1, fun _ => r2 hh, ?_⟩
            intro x hx hxs
            rcases List.mem_cons.mp hx with rfl | hx'
            · exact le_trans (Nat.le_of_not_lt hord) (r2 hh)
            · exact r3 x hx' hxs
        · rw [challenge_of_trump_new ts fs i w h c hc hh]
          obtain ⟨r1, r2, r3⟩ := ih (i + 1) i c (Or.inl hc)
          refine ⟨r1, fun hcon => absurd hcon hh, ?_⟩
          intro x hx hxs
          rcases List.mem_cons.mp hx with rfl | hx'
          · exact r2 hc
          · exact r3 x hx' hxs
      · by_cases hh : getCardSuit h = ts
        · rw [challenge_of_trump_keep ts fs i w h c hc hh]
          obtain ⟨r1, r2, r3⟩ := ih (i + 1) w h (Or.inl hh)
          refine ⟨r1, fun _ => r2 hh, ?_⟩
          intro x hx hxs
          rcases List.mem_cons.mp hx with rfl | hx'
          · exact absurd hxs hc
          · exact r3 x hx' hxs
        · rcases hyp with hh' | ⟨x, hx, hxs⟩
          · exact absurd hh' hh
          rcases List.mem_cons.mp hx with rfl | hx'
          · exact absurd hxs hc
          rcases challenge_cases ts fs i w h c with hch | hch <;> rw [hch]
          · obtain ⟨r1, r2, r3⟩ := ih (i + 1) i c (Or.inr ⟨x, hx', hxs⟩)
            refine ⟨r1, fun hcon => absurd hcon hh, ?_⟩
            intro y hy hys
            rcases List.mem_cons.mp hy with rfl | hy'
            · exact absurd hys hc
            · exact r3 y hy' hys
          · obtain ⟨r1, r2, r3⟩ := ih (i + 1) w h (Or.inr ⟨x, hx', hxs⟩)
            refine ⟨r1, fun hcon => absurd hcon hh, ?_⟩
            intro y hy hys
            rcases List.mem_cons.mp hy with rfl | hy'
            · exact absurd hys hc
            · exact r3 y hy' hys

lemma pickWinner_pos (ts fs : List Char) :
    ∀ (rest : List Card) (i w : Nat) (h : Card),
      ((pickWinner ts fs rest i (w, h)).1 = w ∧ (pickWinner ts fs rest i (w, h)).2 = h) ∨
      ∃ j, j < rest.length ∧ (pickWinner ts fs rest i (w, h)).1 = i + j ∧
        (pickWinner ts fs rest i (w, h)).2 = rest.getD j [] := by
  intro rest
  induction rest with
  | nil => intro i w h; exact Or.inl ⟨rfl, rfl⟩
  | cons c rest ih =>
      intro i w h
      rw [pickWinner_cons]
      rcases challenge_cases ts fs i w h c with hch | hch <;> rw [hch]
      · rcases ih (i + 1) i c with ⟨h1, h2⟩ | ⟨j, hj, h1, h2⟩
        · exact Or.inr ⟨0, Nat.succ_pos _, by rw [h1]; omega, by rw [h2]; rfl⟩
        · exact Or.inr ⟨j + 1, by simpa using Nat.succ_lt_succ hj,
            by rw [h1]; omega, by rw [h2]; rfl⟩
      · rcases ih (i + 1) w h with ⟨h1, h2⟩ | ⟨j, hj, h1, h2⟩
        · exact Or.inl ⟨h1, h2⟩
        · exact Or.inr ⟨j + 1, by simpa using Nat.succ_lt_succ hj,
            by rw [h1]; omega, by rw [h2]; rfl⟩

lemma getD_map_card (rest : List TablePlay) (j : Nat) (hj : j < rest.length) :
    (rest.map (fun t => t.card)).getD j [] = (rest.getD j default).card := by
  rw [List.getD_eq_getElem _ _ (by simpa using hj), List.getD_eq_getElem _ _ hj,
      List.getElem_map]

/-- C2: on every staged completed trick (table length = player count,
2–4 players) containing at least one trump-suit play, the resolver picks a
trump-suit play whose rank is maximal among the trump plays under the order
A > 7 > K > J > Q > 6 > 5 > 4 > 3 > 2; in particular a non-trump lead loses
to the lowest trump (witness: [KH, 2S] with trump S resolves to index 1). -/
theorem claim_C2 (g : GameState)
    (h2 : 2 ≤ g.players.length) (h4 : g.players.length ≤ 4)
    (hfull : g.table.length = g.players.length)
    (htrump : ∃ p ∈ g.table, getCardSuit p.card = getTrumpSuit g.trumpCard) :
    ∃ w, determineRoundWinner g = some w ∧ w < g.table.length ∧
      getCardSuit (g.table.getD w default).card = getTrumpSuit g.trumpCard ∧
      ∀ p ∈ g.table, getCardSuit p.card = getTrumpSuit g.trumpCard →
        getCardOrder (getCardValue p.card) ≤
          getCardOrder (getCardValue (g.table.getD w default).card) := by
  rcases htab : g.table with - | ⟨t0, rest⟩
  · rw [htab] at hfull; simp at hfull; omega
  have hfull' : (t0 :: rest).length = g.players.length := htab ▸ hfull
  have hnlt : ¬(t0 :: rest).length < g.players.length := by omega
  have hdw : determineRoundWinner g =
      some (pickWinner (getTrumpSuit g.trumpCard) (getCardSuit t0.card)
        (rest.map (fun t => t.card)) 1 (0, t0.card)).1 := by
    simp only [determineRoundWinner, htab]
    rw [if_neg hnlt]
  have hyp : getCardSuit t0.card = getTrumpSuit g.trumpCard ∨
      ∃ c ∈ rest.map (fun t => t.card), getCardSuit c = getTrumpSuit g.trumpCard := by
    rcases htrump with ⟨p, hp, hps⟩
    rw [htab] at hp
    rcases List.mem_cons.mp hp with rfl | hp'
    · exact Or.inl hps
    · exact Or.inr ⟨p.card, List.mem_map_of_mem _ hp', hps⟩
  obtain ⟨r1, r2, r3⟩ := pickWinner_trump (getTrumpSuit g.trumpCard) (getCardSuit t0.card)
    (rest.map (fun t => t.card)) 1 0 t0.card hyp
  rcases pickWinner_pos (getTrumpSuit g.trumpCard) (getCardSuit t0.card)
      (rest.map (fun t => t.card)) 1 0 t0.card with ⟨p1, p2⟩ | ⟨j, hj, p1, p2⟩
  · refine ⟨_, hdw, ?_, ?_, ?_⟩
    · rw [p1]; exact Nat.succ_pos _
    · rw [p1]
      show getCardSuit t0.card = getTrumpSuit g.trumpCard
      rw [← p2]; exact r1
    · intro p hp hps
      rw [p1]
      show getCardOrder (getCardValue p.card) ≤ getCardOrder (getCardValue t0.card)
      rw [← p2]
      rcases List.mem_cons.mp hp with rfl | hp'
      · exact r2 hps
      · exact r3 p.card (List.mem_map_of_mem _ hp') hps
  · have hj' : j < rest.length := by simpa using hj
    have hgd : (t0 :: rest).getD ((pickWinner (getTrumpSuit g.trumpCard) (getCardSuit t0.card)
        (rest.map (fun t => t.card)) 1 (0, t0.card)).1) default = rest.getD j default := by
      rw [p1]
      show (t0 :: rest).getD (1 + j) default = rest.getD j default
      rw [Nat.add_comm]
      rfl
    refine ⟨_, hdw, ?_, ?_, ?_⟩
    · rw [p1]; simp; omega
    · rw [hgd, ← getD_map_card rest j hj', ← p2]; exact r1
    · intro p hp hps
      rw [hgd, ← getD_map_card rest j hj', ← p2]
      rcases List.mem_cons.mp hp with rfl | hp'
      · exact r2 hps
      · exact r3 p.card (List.mem_map_of_mem _ hp') hps

/-- The trump-precedence example of the spec: trick [KH (lead), 2S] with
trump suit S. -/
def gC2 : GameState :=
  { createGame with
      players := [pAlice, pBob]
      isGameStarted := true
      trumpCard := ['A', 'S']
      table := [{ playerId := "a", nickname := "alice", card := ['K', 'H'] },
                { playerId := "b", nickname := "bob", card := ['2', 'S'] }] }

/-- C2 witness: the claim instantiated at the spec's trump-precedence
example, which resolves to index 1 (the lowest trump beats the lead King). -/
theorem claim_C2_witness :
    determineRoundWinner gC2 = some 1 ∧
    (∃ w, determineRoundWinner gC2 = some w ∧ w < gC2.table.length ∧
      getCardSuit (gC2.table.getD w default).card = getTrumpSuit gC2.trumpCard ∧
      ∀ p ∈ gC2.table, getCardSuit p.card = getTrumpSuit gC2.trumpCard →
        getCardOrder (getCardValue p.card) ≤
          getCardOrder (getCardValue (gC2.table.getD w default).card)) :=
  ⟨by decide, claim_C2 gC2 (by decide) (by decide) (by decide) (by decide)⟩

lemma challenge_snd_suit (ts fs : List Char) (i w : Nat) (h c : Card) :
    (challenge ts fs i w h c).2 = h ∨
    ((challenge ts fs i w h c).2 = c ∧
      (getCardSuit c = ts ∨ getCardSuit c = fs ∨ getCardSuit c = getCardSuit h)) := by
  unfold challenge
  dsimp only
  split_ifs with m1 m2 s1 s2 s3 o1 s4 s5 o2
  · exact Or.inr ⟨rfl, Or.inr (Or.inr m1.2.2.1.symm)⟩
  · exact Or.inl rfl
  · exact Or.inr ⟨rfl, Or.inl s1.1⟩
  · exact Or.inl rfl
  · exact Or.inr ⟨rfl, Or.inl s3.1⟩
  · exact Or.inl rfl
  · exact Or.inr ⟨rfl, Or.inr (Or.inl s4.1)⟩
  · exact Or.inr ⟨rfl, Or.inr (Or.inl s5.1)⟩
  · exact Or.inl rfl
  · exact Or.inl rfl

lemma pickWinner_snd_suit (ts fs : List Char) :
    ∀ (rest : List Card) (i w : Nat) (h : Card),
      (getCardSuit h = ts ∨ getCardSuit h = fs) →
      getCardSuit (pickWinner ts fs rest i (w, h)).2 = ts ∨
      getCardSuit (pickWinner ts fs rest i (w, h)).2 = fs := by
  intro rest
  induction rest with
  | nil => intro i w h hyp; exact hyp
  | cons c rest ih =>
      intro i w h hyp
      rw [pickWinner_cons]
      rcases hch : challenge ts fs i w h c with ⟨w1, h1⟩
      have hsnd := challenge_snd_suit ts fs i w h c
      rw [hch] at hsnd
      rcases hsnd with h1h | ⟨h1c, hsuits⟩
      · have h1h' : h1 = h := h1h
        exact ih (i + 1) w1 h1 (h1h' ▸ hyp)
      · have h1c' : h1 = c := h1c
        refine ih (i + 1) w1 h1 ?_
        rw [h1c']
        rcases hsuits with hs | hs | hs
        · exact Or.inl hs
        · exact Or.inr hs
        · rw [hs]; exact hyp

lemma challenge_nontrump_win (ts fs : List Char) (i w : Nat) (h c : Card)
    (hwi : w ≠ i)
    (hh : ¬getCardSuit h = ts) (hc : ¬getCardSuit c = ts)
    (hhf : getCardSuit h = fs)
    (hwin : challenge ts fs i w h c = (i, c)) :
    getCardSuit c = fs ∧
      getCardOrder (getCardValue h) < getCardOrder (getCardValue c) := by
  revert hwin
  unfold challenge
  dsimp only
  split_ifs with m1 m2 s1 s2 s3 o1 s4 s5 o2 <;> intro hwin
  · refine ⟨m1.2.2.1.symm.trans hhf, ?_⟩
    rw [m1.1, m1.2.1]; decide
  · exact absurd (Prod.mk.injEq .. ▸ hwin).1 hwi
  · exact absurd s1.1 hc
  · exact absurd (Prod.mk.injEq .. ▸ hwin).1 hwi
  · exact absurd s3.1 hc
  · exact absurd (Prod.mk.injEq .. ▸ hwin).1 hwi
  · exact absurd hhf s4.2
  · exact ⟨s5.1, o2⟩
  · exact absurd (Prod.mk.injEq .. ▸ hwin).1 hwi
  · exact absurd (Prod.mk.injEq .. ▸ hwin).1 hwi

/-- C7: a play that is neither of the trump suit nor of the lead suit (the
suit of the trick's first play) never wins a completed trick: the tracked
best card always keeps trump or lead suit, so the resolved winner's card is
of the trump or lead suit and any off-both-suits table index is never the
result.  Moreover, at a comparison step whose tracked best is non-trump and
lead-suit-following (the only reachable non-trump shape), a non-trump
challenger takes the win only if it follows the lead suit with a strictly
higher rank. -/
theorem claim_C7 :
    (∀ (g : GameState), 0 < g.players.length → g.table.length = g.players.length →
      (∃ w, determineRoundWinner g = some w ∧ w < g.table.length ∧
        (getCardSuit (g.table.getD w default).card = getTrumpSuit g.trumpCard ∨
         getCardSuit (g.table.getD w default).card = getCardSuit (g.table.getD 0 default).card)) ∧
      (∀ j, j < g.table.length →
        ¬getCardSuit (g.table.getD j default).card = getTrumpSuit g.trumpCard →
        ¬getCardSuit (g.table.getD j default).card = getCardSuit (g.table.getD 0 default).card →
        determineRoundWinner g ≠ some j)) ∧
    (∀ (ts fs : List Char) (i w : Nat) (h c : Card), w ≠ i →
      ¬getCardSuit h = ts → ¬getCardSuit c = ts → getCardSuit h = fs →
      challenge ts fs i w h c = (i, c) →
      getCardSuit c = fs ∧
        getCardOrder (getCardValue h) < getCardOrder (getCardValue c)) := by
  constructor
  · intro g hn hfull
    have hex : ∃ w, determineRoundWinner g = some w ∧ w < g.table.length ∧
        (getCardSuit (g.table.getD w default).card = getTrumpSuit g.trumpCard ∨
         getCardSuit (g.table.getD w default).card = getCardSuit (g.table.getD 0 default).card) := by
      rcases htab : g.table with - | ⟨t0, rest⟩
      · rw [htab] at hfull; simp at hfull; omega
      have hfull' : (t0 :: rest).length = g.players.length := htab ▸ hfull
      have hnlt : ¬(t0 :: rest).length < g.players.length := by omega
      have hdw : determineRoundWinner g =
          some (pickWinner (getTrumpSuit g.trumpCard) (getCardSuit t0.card)
            (rest.map (fun t => t.card)) 1 (0, t0.card)).1 := by
        simp only [determineRoundWinner, htab]
        rw [if_neg hnlt]
      have hsuits := pickWinner_snd_suit (getTrumpSuit g.trumpCard) (getCardSuit t0.card)
        (rest.map (fun t => t.card)) 1 0 t0.card (Or.inr rfl)
      rcases pickWinner_pos (getTrumpSuit g.trumpCard) (getCardSuit t0.card)
          (rest.map (fun t => t.card)) 1 0 t0.card with ⟨p1, p2⟩ | ⟨j, hj, p1, p2⟩
      · refine ⟨_, hdw, ?_, ?_⟩
        · rw [p1]; exact Nat.succ_pos _
        · rw [p1]
          exact Or.inr rfl
      · have hj' : j < rest.length := by simpa using hj
        have hgd : (t0 :: rest).getD ((pickWinner (getTrumpSuit g.trumpCard)
            (getCardSuit t0.card) (rest.map (fun t => t.card)) 1 (0, t0.card)).1) default =
            rest.getD j default := by
          rw [p1]
          show (t0 :: rest).getD (1 + j) default = rest.getD j default
          rw [Nat.add_comm]
          rfl
        refine ⟨_, hdw, ?_, ?_⟩
        · rw [p1]; simp; omega
        · rw [hgd, ← getD_map_card rest j hj', ← p2]
          exact hsuits
    obtain ⟨w, hdw, hwlt, hsuit⟩ := hex
    refine ⟨⟨w, hdw, hwlt, hsuit⟩, ?_⟩
    intro j hj hj1 hj2 hcontra
    rw [hcontra] at hdw
    have hwj : w = j := (Option.some.inj hdw).symm
    subst hwj
    rcases hsuit with hs | hs
    · exact hj1 hs
    · exact hj2 hs
  · exact fun ts fs i w h c hwi hh hc hhf hwin =>
      challenge_nontrump_win ts fs i w h c hwi hh hc hhf hwin

/-- A third player for the 3-player C7 witness state. -/
def pCarol : Player := { id := "c", nickname := "carol", hand := [], score := 0, capturedCards := [] }

/-- Staged completed trick [KH (lead), QD (off-suit discard), 2S (trump)]
with trump suit S. -/
def gC7 : GameState :=
  { createGame with
      players := [pAlice, pBob, pCarol]
      isGameStarted := true
      trumpCard := ['A', 'S']
      table := [{ playerId := "a", nickname := "alice", card := ['K', 'H'] },
                { playerId := "b", nickname := "bob", card := ['Q', 'D'] },
                { playerId := "c", nickname := "carol", card := ['2', 'S'] }] }

/-- C7 witness: in the trick [KH, QD, 2S] with trump S the winner's card is
trump or lead suit, the off-both-suits play QD at index 1 is not the
winner, and the step-level characterization instantiated at best KH,
challenger AH, lead H, trump S. -/
theorem claim_C7_witness :
    (∃ w, determineRoundWinner gC7 = some w ∧ w < gC7.table.length ∧
      (getCardSuit (gC7.table.getD w default).card = getTrumpSuit gC7.trumpCard ∨
       getCardSuit (gC7.table.getD w default).card = getCardSuit (gC7.table.getD 0 default).card)) ∧
    determineRoundWinner gC7 ≠ some 1 ∧
    (getCardSuit ['A', 'H'] = ['H'] ∧
      getCardOrder (getCardValue ['K', 'H']) < getCardOrder (getCardValue ['A', 'H'])) :=
  ⟨(claim_C7.1 gC7 (by decide) (by decide)).1,
   (claim_C7.1 gC7 (by decide) (by decide)).2 1 (by decide) (by decide) (by decide),
   claim_C7.2 ['S'] ['H'] 1 0 ['K', 'H'] ['A', 'H'] (by decide) (by decide) (by decide)
     (by decide) (by decide)⟩

lemma playCard_not_started (g : GameState) (pid : String) (card : Card)
    (h : g.isGameStarted = false) : playCard g pid card = g := by
  simp only [playCard, h, if_pos]

lemma playCard_no_index (g : GameState) (pid : String) (card : Card)
    (h : jsFindIndex (fun p => p.id == pid) g.players = none) :
    playCard g pid card = g := by
  by_cases hs : g.isGameStarted = false
  · simp only [playCard, hs, if_pos]
  · simp only [playCard, hs, h]
    simp

lemma playCard_wrong_turn (g : GameState) (pid : String) (card : Card) (idx : Nat)
    (h : jsFindIndex (fun p => p.id == pid) g.players = some idx)
    (hne : idx ≠ g.turn) : playCard g pid card = g := by
  by_cases hs : g.isGameStarted = false
  · simp only [playCard, hs, if_pos]
  · simp only [playCard, hs, h, if_pos hne]
    simp

lemma playCard_not_in_hand (g : GameState) (pid : String) (card : Card)
    (h : jsFindIndex (fun p => p.id == pid) g.players = some g.turn)
    (hhand : card ∉ (g.players.getD g.turn default).hand) :
    playCard g pid card = g := by
  by_cases hs : g.isGameStarted = false
  · simp only [playCard, hs, if_pos]
  · simp only [playCard, hs, h]
    rw [if_neg (fun hcon : g.turn ≠ g.turn => hcon rfl), if_pos hhand]
    simp

lemma playCard_lead_reject (g : GameState) (pid : String) (card : Card)
    (h : jsFindIndex (fun p => p.id == pid) g.players = some g.turn)
    (hhand : card ∈ (g.players.getD g.turn default).hand)
    (hlead : g.roundNumber = 1 ∧ g.table.length = 0 ∧
      (∃ c ∈ (g.players.getD g.turn default).hand,
        getCardSuit c = getTrumpSuit g.trumpCard) ∧
      ¬getCardSuit card = getTrumpSuit g.trumpCard) :
    playCard g pid card = g := by
  by_cases hs : g.isGameStarted = false
  · simp only [playCard, hs, if_pos]
  · simp only [playCard, hs, h]
    rw [if_neg (fun hcon : g.turn ≠ g.turn => hcon rfl),
        if_neg (not_not_intro hhand), if_pos hlead]
    simp

lemma playCard_follow_reject (g : GameState) (pid : String) (card : Card)
    (h : jsFindIndex (fun p => p.id == pid) g.players = some g.turn)
    (hhand : card ∈ (g.players.getD g.turn default).hand)
    (hlead : ¬(g.roundNumber = 1 ∧ g.table.length = 0 ∧
      (∃ c ∈ (g.players.getD g.turn default).hand,
        getCardSuit c = getTrumpSuit g.trumpCard) ∧
      ¬getCardSuit card = getTrumpSuit g.trumpCard))
    (hfollow : 0 < g.table.length ∧
      (∃ c ∈ (g.players.getD g.turn default).hand,
        getCardSuit c = getCardSuit (g.table.getD 0 default).card) ∧
      ¬getCardSuit card = getCardSuit (g.table.getD 0 default).card) :
    playCard g pid card = g := by
  by_cases hs : g.isGameStarted = false
  · simp only [playCard, hs, if_pos]
  · simp only [playCard, hs, h]
    rw [if_neg (fun hcon : g.turn ≠ g.turn => hcon rfl),
        if_neg (not_not_intro hhand), if_neg hlead, if_pos hfollow]
    simp

lemma playCard_accepted (g : GameState) (pid : String) (card : Card)
    (hstart : g.isGameStarted = true)
    (hfind : jsFindIndex (fun p => p.id == pid) g.players = some g.turn)
    (hhand : card ∈ (g.players.getD g.turn default).hand)
    (hlead : ¬(g.roundNumber = 1 ∧ g.table.length = 0 ∧
      (∃ c ∈ (g.players.getD g.turn default).hand,
        getCardSuit c = getTrumpSuit g.trumpCard) ∧
      ¬getCardSuit card = getTrumpSuit g.trumpCard))
    (hfollow : ¬(0 < g.table.length ∧
      (∃ c ∈ (g.players.getD g.turn default).hand,
        getCardSuit c = getCardSuit (g.table.getD 0 default).card) ∧
      ¬getCardSuit card = getCardSuit (g.table.getD 0 default).card)) :
    playCard g pid card =
      { g with
          players := g.players.map (fun p =>
            if p.id = pid then { p with hand := p.hand.filter (fun c => c != card) } else p),
          table := g.table ++
            [⟨pid, (g.players.getD g.turn default).nickname, card⟩],
          turn := (g.turn + 1) % g.players.length,
          playedTrumpAByPlayerId :=
            if card = ['A'] ++ getTrumpSuit g.trumpCard then
              (fun k => if k = pid then true else g.playedTrumpAByPlayerId k)
            else g.playedTrumpAByPlayerId } := by
  simp only [playCard, hstart, hfind]
  rw [if_neg (fun hcon : (true : Bool) = false => Bool.noConfusion hcon),
      if_neg (fun hcon : g.turn ≠ g.turn => hcon rfl),
      if_neg (not_not_intro hhand), if_neg hlead, if_neg hfollow]
  split_ifs <;> rfl

/-- C5: in a started game in the first round with an empty table, if the
player to act holds a trump-suit card, then any lead whose suit is not the
trump suit is silently rejected (the input state is returned), while a
trump-suit card from that hand is accepted and appended to the table. -/
theorem claim_C5 (g : GameState) (pid : String)
    (hstart : g.isGameStarted = true)
    (hround : g.roundNumber = 1)
    (hempty : g.table = [])
    (hfind : jsFindIndex (fun p => p.id == pid) g.players = some g.turn)
    (htrump : ∃ c ∈ (g.players.getD g.turn default).hand,
      getCardSuit c = getTrumpSuit g.trumpCard) :
    (∀ card : Card, ¬getCardSuit card = getTrumpSuit g.trumpCard →
      playCard g pid card = g) ∧
    (∀ card ∈ (g.players.getD g.turn default).hand,
      getCardSuit card = getTrumpSuit g.trumpCard →
      (playCard g pid card).table =
        [⟨pid, (g.players.getD g.turn default).nickname, card⟩]) := by
  constructor
  · intro card hcs
    by_cases hh : card ∈ (g.players.getD g.turn default).hand
    · exact playCard_lead_reject g pid card hfind hh
        ⟨hround, by rw [hempty]; rfl, htrump, hcs⟩
    · exact playCard_not_in_hand g pid card hfind hh
  · intro card hh hcs
    rw [playCard_accepted g pid card hstart hfind hh
        (fun hcon => hcon.2.2.2 hcs)
        (fun hcon => by rw [hempty] at hcon; exact absurd hcon.1 (by simp))]
    show g.table ++ [⟨pid, (g.players.getD g.turn default).nickname, card⟩] = _
    rw [hempty]
    rfl

/-- C6: silent-rejection discipline of `playCard`.  With a non-empty table
and a hand holding the lead suit, an off-suit play returns the input state
unchanged; likewise when the game has not started, when the caller does not
own the current turn (including an unknown id), and when the card is not in
the acting player's hand. -/
theorem claim_C6 :
    (∀ (g : GameState) (pid : String) (card : Card),
      g.table ≠ [] →
      (∃ c ∈ (g.players.getD g.turn default).hand,
        getCardSuit c = getCardSuit (g.table.getD 0 default).card) →
      ¬getCardSuit card = getCardSuit (g.table.getD 0 default).card →
      playCard g pid card = g) ∧
    (∀ (g : GameState) (pid : String) (card : Card),
      g.isGameStarted = false → playCard g pid card = g) ∧
    (∀ (g : GameState) (pid : String) (card : Card),
      jsFindIndex (fun p => p.id == pid) g.players ≠ some g.turn →
      playCard g pid card = g) ∧
    (∀ (g : GameState) (pid : String) (card : Card),
      jsFindIndex (fun p => p.id == pid) g.players = some g.turn →
      card ∉ (g.players.getD g.turn default).hand →
      playCard g pid card = g) := by
  refine ⟨?_, ?_, ?_, ?_⟩
  · intro g pid card htab hlead hcs
    by_cases hs : g.isGameStarted = false
    · exact playCard_not_started g pid card hs
    rcases hfi : jsFindIndex (fun p => p.id == pid) g.players with - | idx
    · exact playCard_no_index g pid card hfi
    by_cases hidx : idx = g.turn
    · subst hidx
      by_cases hh : card ∈ (g.players.getD g.turn default).hand
      · refine playCard_follow_reject g pid card hfi hh ?_ ?_
        · rintro ⟨-, hlen, -, -⟩
          exact htab (List.length_eq_zero.mp hlen)
        · exact ⟨List.length_pos.mpr htab, hlead, hcs⟩
      · exact playCard_not_in_hand g pid card hfi hh
    · exact playCard_wrong_turn g pid card idx hfi hidx
  · exact playCard_not_started
  · intro g pid card hne
    rcases hfi : jsFindIndex (fun p => p.id == pid) g.players with - | idx
    · exact playCard_no_index g pid card hfi
    · refine playCard_wrong_turn g pid card idx hfi (fun hcon => hne ?_)
      rw [hfi, hcon]
  · exact playCard_not_in_hand

lemma determineRoundWinner_isSome (g : GameState) (hn : 0 < g.players.length)
    (hfull : g.table.length = g.players.length) :
    ∃ w, determineRoundWinner g = some w := by
  rcases htab : g.table with - | ⟨t0, rest⟩
  · rw [htab] at hfull; simp at hfull; omega
  · have hfull' : (t0 :: rest).length = g.players.length := htab ▸ hfull
    refine ⟨(pickWinner (getTrumpSuit g.trumpCard) (getCardSuit t0.card)
      (rest.map (fun t => t.card)) 1 (0, t0.card)).1, ?_⟩
    simp only [determineRoundWinner, htab]
    rw [if_neg (by omega)]

lemma resolveTrick_eq (g : GameState) (w : Nat)
    (hfull : g.table.length = g.players.length)
    (hw : determineRoundWinner g = some w) :
    resolveTrick g =
      (let playersCount : Int := g.players.length
       let lastPlayerIndex : Int := ((g.turn : Int) - 1 + playersCount) % playersCount
       let startingPlayerIndex : Int :=
         (lastPlayerIndex - (playersCount - 1) + playersCount) % playersCount
       let absoluteWinnerPlayerIndex : Int :=
         (startingPlayerIndex + (w : Int)) % playersCount
       let winner := g.players.getD absoluteWinnerPlayerIndex.toNat default
       let capturedCards := g.table.map (fun play => play.card)
       let roundPoints := g.table.foldl (fun sum play => sum + getCardPoints play.card) 0
       { g with
           players := g.players.map (fun p =>
             if p.id = winner.id then
               { p with score := p.score + roundPoints,
                        capturedCards := p.capturedCards ++ capturedCards }
             else p),
           table := [],
           turn := absoluteWinnerPlayerIndex.toNat,
           roundNumber := g.roundNumber + 1,
           lastTrickWinnerId := some winner.id,
           lastTrickCards := some g.table,
           capturedOppTrump7ByPlayerId :=
             match g.table.find? (fun t => t.card == ['7'] ++ getTrumpSuit g.trumpCard) with
             | some sp =>
                 if sp.playerId ≠ winner.id then
                   (fun k => if k = winner.id then true else g.capturedOppTrump7ByPlayerId k)
                 else g.capturedOppTrump7ByPlayerId
             | none => g.capturedOppTrump7ByPlayerId }) := by
  simp only [resolveTrick, hw]
  rw [if_neg (not_not_intro hfull)]

lemma seat_arith (turn w : Nat) (n : Int) :
    ((((turn : Int) - 1 + n) % n - (n - 1) + n) % n + (w : Int)) % n =
      (((turn : Int) - n) % n + (w : Int)) % n := by
  have e1 : ((((turn : Int) - 1 + n) % n - (n - 1) + n) % n + (w : Int)) % n =
      ((((turn : Int) - 1 + n) % n - (n - 1) + n + w) % n) := Int.emod_add_emod _ n _
  have e2 : ((((turn : Int) - 1 + n) % n - (n - 1) + n + w) % n) =
      ((((turn : Int) - 1 + n) % n + (w + 1)) % n) := by ring_nf
  have e3 : ((((turn : Int) - 1 + n) % n + (w + 1)) % n) =
      (((turn : Int) - 1 + n + (w + 1)) % n) := Int.emod_add_emod _ n _
  have e4 : (((turn : Int) - 1 + n + (w + 1)) % n) = (((turn : Int) + w + 1 * n) % n) := by
    ring_nf
  have e5 : (((turn : Int) + w + 1 * n) % n) = (((turn : Int) + w) % n) :=
    Int.add_mul_emod_self
  have f1 : (((turn : Int) - n) % n + (w : Int)) % n = (((turn : Int) - n + w) % n) :=
    Int.emod_add_emod _ n _
  have f2 : (((turn : Int) - n + w) % n) = (((turn : Int) + w + (-1) * n) % n) := by ring_nf
  have f3 : (((turn : Int) + w + (-1) * n) % n) = (((turn : Int) + w) % n) :=
    Int.add_mul_emod_self
  rw [e1, e2, e3, e4, e5, f1, f2, f3]

/-- C4: turn bookkeeping.  An accepted `playCard` that does not complete
the trick sets `turn` to `(turn + 1) % playerCount`; `resolveTrick` on a
full table sets `turn` to the winner's absolute seat, obtained from the
resolver's table index `w` by mapping from the leading seat reconstructed
as `(turn - playerCount) mod playerCount` (the source computes the same
value through `lastPlayerIndex`/`startingPlayerIndex`; `seat_arith` proves
the two formulas agree). -/
theorem claim_C4 :
    (∀ (g : GameState) (pid : String) (card : Card),
      g.isGameStarted = true →
      jsFindIndex (fun p => p.id == pid) g.players = some g.turn →
      card ∈ (g.players.getD g.turn default).hand →
      ¬(g.roundNumber = 1 ∧ g.table.length = 0 ∧
        (∃ c ∈ (g.players.getD g.turn default).hand,
          getCardSuit c = getTrumpSuit g.trumpCard) ∧
        ¬getCardSuit card = getTrumpSuit g.trumpCard) →
      ¬(0 < g.table.length ∧
        (∃ c ∈ (g.players.getD g.turn default).hand,
          getCardSuit c = getCardSuit (g.table.getD 0 default).card) ∧
        ¬getCardSuit card = getCardSuit (g.table.getD 0 default).card) →
      g.table.length + 1 ≠ g.players.length →
      (playCard g pid card).turn = (g.turn + 1) % g.players.length) ∧
    (∀ g : GameState, 0 < g.players.length →
      g.table.length = g.players.length →
      ∃ w, determineRoundWinner g = some w ∧
        (resolveTrick g).turn =
          ((((g.turn : Int) - g.players.length) % g.players.length + w) %
            g.players.length).toNat) := by
  constructor
  · intro g pid card hstart hfind hhand hlead hfollow hnc
    rw [playCard_accepted g pid card hstart hfind hhand hlead hfollow]
  · intro g hn hfull
    obtain ⟨w, hw⟩ := determineRoundWinner_isSome g hn hfull
    refine ⟨w, hw, ?_⟩
    rw [resolveTrick_eq g w hfull hw]
    exact congrArg Int.toNat (seat_arith g.turn w (g.players.length : Int))

/-- C4 witness: the first play of the fixture game advances the turn to 1,
and resolving the staged trick hands the turn to seat 0 (the Ace leader). -/
theorem claim_C4_witness :
    (playCard gStart "a" ['A', 'S']).turn = (gStart.turn + 1) % gStart.players.length ∧
    (∃ w, determineRoundWinner gFull = some w ∧
      (resolveTrick gFull).turn =
        ((((gFull.turn : Int) - gFull.players.length) % gFull.players.length + w) %
          gFull.players.length).toNat) :=
  ⟨claim_C4.1 gStart "a" ['A', 'S'] (by decide) (by decide) (by decide) (by decide)
      (by decide) (by decide),
   claim_C4.2 gFull (by decide) (by decide)⟩

/-- C5 witness: in the dealt fixture game, player "a" (to act, holding
trumps) has the non-trump lead AH rejected and the trump lead AS accepted
onto the table. -/
theorem claim_C5_witness :
    playCard gStart "a" ['A', 'H'] = gStart ∧
    (playCard gStart "a" ['A', 'S']).table =
      [⟨"a", (gStart.players.getD gStart.turn default).nickname, ['A', 'S']⟩] :=
  ⟨(claim_C5 gStart "a" (by decide) (by decide) (by decide) (by decide) (by decide)).1
      ['A', 'H'] (by decide),
   (claim_C5 gStart "a" (by decide) (by decide) (by decide) (by decide) (by decide)).2
      ['A', 'S'] (by decide) (by decide)⟩

/-- C6 witness: with AS led on the table, the off-suit follow 2H by "b" is
rejected; a play before `startGame` is rejected; "a" playing out of turn is
rejected; "b" playing a card not in hand is rejected — all by returning the
input state. -/
theorem claim_C6_witness :
    playCard gMid "b" ['2', 'H'] = gMid ∧
    playCard g0 "a" ['A', 'S'] = g0 ∧
    playCard gMid "a" ['3', 'S'] = gMid ∧
    playCard gMid "b" ['A', 'S'] = gMid :=
  ⟨claim_C6.1 gMid "b" ['2', 'H'] (by decide) (by decide) (by decide),
   claim_C6.2.1 g0 "a" ['A', 'S'] (by decide),
   claim_C6.2.2.1 gMid "a" ['3', 'S'] (by decide),
   claim_C6.2.2.2 gMid "b" ['A', 'S'] (by decide) (by decide)⟩

lemma getD_map_range {β : Type} (n j : Nat) (f : Nat → β) (d : β) (hj : j < n) :
    ((List.range n).map f).getD j d = f j := by
  rw [List.getD_eq_getElem _ _ (by simpa using hj), List.getElem_map, List.getElem_range]

lemma set_map_range {β : Type} (n j : Nat) (f : Nat → β) (v : β) :
    ((List.range n).map f).set j v =
      (List.range n).map (fun p => if p = j then v else f p) := by
  apply List.ext_getElem
  · simp
  · intro k hk1 hk2
    rw [List.getElem_set]
    simp only [List.getElem_map, List.getElem_range]
    by_cases hkj : j = k
    · subst hkj; simp
    · rw [if_neg hkj, if_neg (fun hcon => hkj hcon.symm)]

lemma mapWithIndexFrom_length {α β : Type} (f : Nat → α → β) :
    ∀ (l : List α) (i : Nat), (mapWithIndexFrom f i l).length = l.length := by
  intro l
  induction l with
  | nil => intro i; rfl
  | cons x xs ih => intro i; simp [mapWithIndexFrom, ih]

lemma mapWithIndexFrom_getElem {α β : Type} (f : Nat → α → β) :
    ∀ (l : List α) (i k : Nat) (hk : k < l.length),
      (mapWithIndexFrom f i l).get ⟨k, by rw [mapWithIndexFrom_length]; exact hk⟩ =
        f (i + k) (l.get ⟨k, hk⟩) := by
  intro l
  induction l with
  | nil => intro i k hk; cases hk
  | cons x xs ih =>
      intro i k hk
      cases k with
      | zero => simp [mapWithIndexFrom]
      | succ k =>
          have hk' : k < xs.length := Nat.lt_of_succ_lt_succ hk
          have := ih (i + 1) k hk'
          simp only [mapWithIndexFrom, List.get_cons_succ]
          rw [this]
          congr 1
          omega

lemma dealLoop_zero (deck : List Card) (n : Nat) :
    dealLoop deck n 0 = List.replicate n [] := rfl

lemma dealLoop_eq (deck : List Card) (n : Nat) :
    ∀ total, dealLoop deck n total =
      (List.range n).map (fun p =>
        ((List.range total).filter (fun i => i % n == p)).map (fun i => deck.getD i [])) := by
  intro total
  induction total with
  | zero =>
      rw [dealLoop_zero]
      apply List.ext_getElem
      · simp
      · intro k hk1 hk2
        simp
  | succ t ih =>
      have hstep : dealLoop deck n (t + 1) =
          (dealLoop deck n t).set (t % n)
            ((dealLoop deck n t).getD (t % n) [] ++ [deck.getD t []]) := by
        unfold dealLoop
        rw [List.range_succ, List.foldl_append]
        rfl
      rw [hstep, ih]
      have hmod : t % n < n ∨ n = 0 := by
        rcases Nat.eq_zero_or_pos n with h0 | hpos
        · exact Or.inr h0
        · exact Or.inl (Nat.mod_lt t hpos)
      rcases hmod with hlt | h0
      · rw [getD_map_range n (t % n) _ [] hlt, set_map_range]
        apply List.ext_getElem
        · simp
        · intro k hk1 hk2
          simp only [List.getElem_map, List.getElem_range]
          rw [List.range_succ, List.filter_append]
          by_cases hk : k = t % n
          · rw [if_pos hk]
            have hfil : (List.filter (fun i => i % n == k) [t]) = [t] := by
              simp only [List.filter_cons, List.filter_nil]
              rw [if_pos]
              rw [hk]
              exact beq_self_eq_true _
            rw [hfil, List.map_append, hk]
            rfl
          · rw [if_neg hk]
            have hfil : (List.filter (fun i => i % n == k) [t]) = [] := by
              simp only [List.filter_cons, List.filter_nil]
              rw [if_neg]
              intro hcon
              exact hk (eq_of_beq hcon).symm
            rw [hfil, List.append_nil]
      · subst h0
        simp

lemma startGame_eq (shuffled : List Card) (trumpIdx : Nat) (g : GameState)
    (hok : ¬(g.players.length < 2 ∨ 4 < g.players.length)) :
    startGame shuffled trumpIdx g =
      (let hands := dealLoop shuffled g.players.length (g.players.length * 10)
       let newPlayers := mapWithIndexFrom (fun index player =>
         { player with hand := hands.getD index [], score := 0, capturedCards := [] })
         0 g.players
       let candidates := (newPlayers.map (fun p => p.hand)).flatten
       { g with
           players := newPlayers,
           trumpCard :=
             if 0 < candidates.length then candidates.getD trumpIdx []
             else shuffled.getD 0 [],
           deck := shuffled.drop (g.players.length * 10),
           turn := 0,
           roundNumber := 1,
           isGameStarted := true,
           table := [] }) := by
  simp only [startGame]
  rw [if_neg hok]

lemma mem_filter_range_mod (n total p i : Nat) :
    i ∈ (List.range total).filter (fun j => j % n == p) ↔ i < total ∧ i % n = p := by
  simp [List.mem_filter, List.mem_range]

lemma filter_range_mod_length (n p : Nat) (hn : n = 2 ∨ n = 3 ∨ n = 4) (hp : p < n) :
    ((List.range (n * 10)).filter (fun i => i % n == p)).length = 10 := by
  rcases hn with rfl | rfl | rfl <;> interval_cases p <;> decide

lemma idx_flatten_perm (n : Nat) (hn : n = 2 ∨ n = 3 ∨ n = 4) :
    ((List.range n).map (fun p =>
      (List.range (n * 10)).filter (fun i => i % n == p))).flatten.Perm
      (List.range (n * 10)) := by
  rcases hn with rfl | rfl | rfl <;> exact List.isPerm_iff.mp (by decide)

lemma map_getD_range_take (l : List Card) :
    ∀ m, m ≤ l.length → (List.range m).map (fun i => l.getD i []) = l.take m := by
  intro m
  induction m with
  | zero => intro hm; simp
  | succ k ih =>
      intro hm
      rw [List.range_succ, List.map_append, ih (by omega)]
      have hk : k < l.length := by omega
      rw [List.take_succ]
      congr 1
      rw [List.getElem?_eq_getElem hk]
      show [l.getD k []] = [l[k]]
      rw [List.getD_eq_getElem l [] hk]

lemma mapWithIndexFrom_map_hand (f : Nat → Player → Player) (players : List Player)
    (hands : List (List Card)) (hlen : hands.length = players.length)
    (hf : ∀ i p, (f i p).hand = hands.getD i []) :
    (mapWithIndexFrom f 0 players).map (fun p => p.hand) = hands := by
  apply List.ext_getElem
  · simp [mapWithIndexFrom_length, hlen]
  · intro k hk1 hk2
    have hk' : k < players.length := by
      simpa [mapWithIndexFrom_length] using hk1
    rw [List.getElem_map]
    have hget := mapWithIndexFrom_getElem f players 0 k hk'
    show ((mapWithIndexFrom f 0 players).get
      ⟨k, by rw [mapWithIndexFrom_length]; exact hk'⟩).hand = hands[k]
    rw [hget, hf]
    rw [Nat.zero_add, List.getD_eq_getElem hands [] (by rw [hlen]; exact hk')]

lemma mapWithIndexFrom_map_proj {γ : Type} (f : Nat → Player → Player) (proj : Player → γ)
    (hproj : ∀ i p, proj (f i p) = proj p) :
    ∀ (players : List Player) (i0 : Nat),
      (mapWithIndexFrom f i0 players).map proj = players.map proj := by
  intro players
  induction players with
  | nil => intro i0; rfl
  | cons p ps ih => intro i0; simp [mapWithIndexFrom, hproj, ih]

lemma mapWithIndexFrom_map_const {γ : Type} (f : Nat → Player → Player) (proj : Player → γ)
    (c0 : γ) (hproj : ∀ i p, proj (f i p) = c0) :
    ∀ (players : List Player) (i0 : Nat),
      (mapWithIndexFrom f i0 players).map proj = List.replicate players.length c0 := by
  intro players
  induction players with
  | nil => intro i0; rfl
  | cons p ps ih =>
      intro i0
      simp [mapWithIndexFrom, hproj, ih, List.replicate_succ]

lemma hands_disjoint_at (shuffled : List Card) (n : Nat)
    (hlen : shuffled.length = 40) (hnd : shuffled.Nodup) (hn4 : n ≤ 4) :
    ∀ p q, p ≠ q → ∀ c,
      c ∈ ((List.range (n * 10)).filter (fun i => i % n == p)).map (fun i => shuffled.getD i []) →
      c ∉ ((List.range (n * 10)).filter (fun i => i % n == q)).map (fun i => shuffled.getD i []) := by
  intro p q hpq c hc hc'
  rcases List.mem_map.mp hc with ⟨a, ha, hac⟩
  rcases List.mem_map.mp hc' with ⟨b, hb, hbc⟩
  rw [mem_filter_range_mod] at ha hb
  have heq : shuffled.getD a [] = shuffled.getD b [] := by rw [hac, hbc]
  rw [List.getD_eq_getElem _ _ (by omega : a < shuffled.length),
      List.getD_eq_getElem _ _ (by omega : b < shuffled.length)] at heq
  have hab : a = b := (List.Nodup.getElem_inj_iff hnd).mp heq
  apply hpq
  rw [← ha.2, ← hb.2, hab]

lemma hands_flatten_perm (shuffled : List Card) (n : Nat)
    (hlen : shuffled.length = 40) (hn : n = 2 ∨ n = 3 ∨ n = 4) :
    (((List.range n).map (fun p =>
      ((List.range (n * 10)).filter (fun i => i % n == p)).map
        (fun i => shuffled.getD i []))).flatten).Perm (shuffled.take (n * 10)) := by
  have h1 : ((List.range n).map (fun p =>
      ((List.range (n * 10)).filter (fun i => i % n == p)).map
        (fun i => shuffled.getD i []))).flatten =
      (((List.range n).map (fun p =>
        (List.range (n * 10)).filter (fun i => i % n == p))).flatten).map
          (fun i => shuffled.getD i []) := by
    rw [List.map_flatten, List.map_map]
    rfl
  rw [h1]
  refine ((idx_flatten_perm n hn).map (fun i => shuffled.getD i [])).trans ?_
  rw [map_getD_range_take shuffled (n * 10) (by omega)]

lemma startGame_hands (shuffled : List Card) (trumpIdx : Nat) (g : GameState)
    (h2 : 2 ≤ g.players.length) (h4 : g.players.length ≤ 4) :
    (startGame shuffled trumpIdx g).players.map (fun p => p.hand) =
      (List.range g.players.length).map (fun p =>
        ((List.range (g.players.length * 10)).filter
          (fun i => i % g.players.length == p)).map (fun i => shuffled.getD i [])) := by
  rw [startGame_eq _ _ _ (by omega)]
  dsimp only
  rw [mapWithIndexFrom_map_hand _ g.players
      (dealLoop shuffled g.players.length (g.players.length * 10))
      (by rw [dealLoop_eq]; simp) (fun i p => rfl)]
  exact dealLoop_eq shuffled g.players.length (g.players.length * 10)

lemma getD_map_hand (ps : List Player) (i : Nat) (hi : i < ps.length) :
    (ps.map (fun p => p.hand)).getD i [] = (ps.getD i default).hand := by
  rw [List.getD_eq_getElem _ _ (by simpa using hi), List.getD_eq_getElem _ _ hi,
      List.getElem_map]

lemma startGame_players_length (shuffled : List Card) (trumpIdx : Nat) (g : GameState)
    (h2 : 2 ≤ g.players.length) (h4 : g.players.length ≤ 4) :
    (startGame shuffled trumpIdx g).players.length = g.players.length := by
  rw [startGame_eq _ _ _ (by omega)]
  dsimp only
  rw [mapWithIndexFrom_length]

lemma startGame_deck (shuffled : List Card) (trumpIdx : Nat) (g : GameState)
    (h2 : 2 ≤ g.players.length) (h4 : g.players.length ≤ 4) :
    (startGame shuffled trumpIdx g).deck = shuffled.drop (g.players.length * 10) := by
  rw [startGame_eq _ _ _ (by omega)]

lemma startGame_trumpCard (shuffled : List Card) (trumpIdx : Nat) (g : GameState)
    (h2 : 2 ≤ g.players.length) (h4 : g.players.length ≤ 4) :
    (startGame shuffled trumpIdx g).trumpCard =
      (if 0 < (((startGame shuffled trumpIdx g).players.map (fun p => p.hand)).flatten).length
       then (((startGame shuffled trumpIdx g).players.map (fun p => p.hand)).flatten).getD trumpIdx []
       else shuffled.getD 0 []) := by
  conv_lhs => rw [startGame_eq _ _ _ (by omega)]
  conv_rhs => rw [startGame_eq _ _ _ (by omega)]

/-- C3: after `startGame` on 2–4 players with any permutation of the full
deck and any in-range trump pick, every hand holds exactly 10 cards, hands
are pairwise disjoint, hands together with the undealt deck are a
permutation of the 40-card `createDeck` (which has 40 distinct cards), and
the chosen trump card lies in exactly one dealt hand. -/
theorem claim_C3 (g : GameState) (shuffled : List Card) (trumpIdx : Nat)
    (hperm : shuffled.Perm createDeck)
    (h2 : 2 ≤ g.players.length) (h4 : g.players.length ≤ 4)
    (hidx : trumpIdx < g.players.length * 10) :
    (∀ i, i < (startGame shuffled trumpIdx g).players.length →
      ((startGame shuffled trumpIdx g).players.getD i default).hand.length = 10) ∧
    (∀ i j, i < (startGame shuffled trumpIdx g).players.length →
      j < (startGame shuffled trumpIdx g).players.length → i ≠ j →
      ∀ c, c ∈ ((startGame shuffled trumpIdx g).players.getD i default).hand →
        c ∉ ((startGame shuffled trumpIdx g).players.getD j default).hand) ∧
    ((((startGame shuffled trumpIdx g).players.map (fun p => p.hand)).flatten ++
      (startGame shuffled trumpIdx g).deck).Perm createDeck) ∧
    (createDeck.length = 40 ∧ createDeck.Nodup) ∧
    (∃ i, i < (startGame shuffled trumpIdx g).players.length ∧
      (startGame shuffled trumpIdx g).trumpCard ∈
        ((startGame shuffled trumpIdx g).players.getD i default).hand ∧
      ∀ j, j < (startGame shuffled trumpIdx g).players.length → j ≠ i →
        (startGame shuffled trumpIdx g).trumpCard ∉
          ((startGame shuffled trumpIdx g).players.getD j default).hand) := by
  have hncase : g.players.length = 2 ∨ g.players.length = 3 ∨ g.players.length = 4 := by
    omega
  have hlen40 : shuffled.length = 40 := by
    rw [hperm.length_eq]; decide
  have hnd : shuffled.Nodup := hperm.nodup_iff.mpr (by decide)
  have hhands := startGame_hands shuffled trumpIdx g h2 h4
  have hplen := startGame_players_length shuffled trumpIdx g h2 h4
  have hhand_at : ∀ i, i < (startGame shuffled trumpIdx g).players.length →
      ((startGame shuffled trumpIdx g).players.getD i default).hand =
        ((List.range (g.players.length * 10)).filter
          (fun t => t % g.players.length == i)).map (fun t => shuffled.getD t []) := by
    intro i hi
    have hi' : i < g.players.length := by omega
    rw [← getD_map_hand _ _ (by omega), hhands,
        getD_map_range g.players.length i _ [] hi']
  have hflat : (((startGame shuffled trumpIdx g).players.map (fun p => p.hand)).flatten).Perm
      (shuffled.take (g.players.length * 10)) := by
    rw [hhands]
    exact hands_flatten_perm shuffled g.players.length hlen40 hncase
  have hdisj : ∀ i j, i < (startGame shuffled trumpIdx g).players.length →
      j < (startGame shuffled trumpIdx g).players.length → i ≠ j →
      ∀ c, c ∈ ((startGame shuffled trumpIdx g).players.getD i default).hand →
        c ∉ ((startGame shuffled trumpIdx g).players.getD j default).hand := by
    intro i j hi hj hij c hci
    rw [hhand_at i hi] at hci
    rw [hhand_at j hj]
    exact hands_disjoint_at shuffled g.players.length hlen40 hnd (by omega) i j hij c hci
  refine ⟨?_, hdisj, ?_, ⟨by decide, by decide⟩, ?_⟩
  · intro i hi
    rw [hhand_at i hi, List.length_map,
        filter_range_mod_length g.players.length i hncase (by omega)]
  · refine (hflat.append (List.Perm.refl (startGame shuffled trumpIdx g).deck)).trans ?_
    rw [startGame_deck shuffled trumpIdx g h2 h4, List.take_append_drop]
    exact hperm
  · have hclen : (((startGame shuffled trumpIdx g).players.map (fun p => p.hand)).flatten).length =
        g.players.length * 10 := by
      rw [hflat.length_eq, List.length_take]
      omega
    have htc : (startGame shuffled trumpIdx g).trumpCard =
        (((startGame shuffled trumpIdx g).players.map (fun p => p.hand)).flatten).getD trumpIdx [] := by
      rw [startGame_trumpCard shuffled trumpIdx g h2 h4, if_pos (by omega)]
    have hmem : (startGame shuffled trumpIdx g).trumpCard ∈
        ((startGame shuffled trumpIdx g).players.map (fun p => p.hand)).flatten := by
      rw [htc, List.getD_eq_getElem _ _ (by omega)]
      exact List.getElem_mem _
    rcases List.mem_flatten.mp hmem with ⟨hand, hhm, htm⟩
    rcases List.mem_map.mp hhm with ⟨player, hpm, rfl⟩
    rcases List.getElem_of_mem hpm with ⟨i, hi, hpi⟩
    have hgd : (startGame shuffled trumpIdx g).players.getD i default = player := by
      rw [List.getD_eq_getElem _ _ hi, hpi]
    refine ⟨i, hi, by rw [hgd]; exact htm, ?_⟩
    intro j hj hji hcon
    exact hdisj i j hi hj (fun hcon2 => hji hcon2.symm)
      (startGame shuffled trumpIdx g).trumpCard (by rw [hgd]; exact htm) hcon

/-- C3 witness: the deal invariants instantiated at the 2-player fixture
game dealt with the identity shuffle and trump index 0. -/
theorem claim_C3_witness :
    (∀ i, i < (startGame createDeck 0 g0).players.length →
      ((startGame createDeck 0 g0).players.getD i default).hand.length = 10) ∧
    (∀ i j, i < (startGame createDeck 0 g0).players.length →
      j < (startGame createDeck 0 g0).players.length → i ≠ j →
      ∀ c, c ∈ ((startGame createDeck 0 g0).players.getD i default).hand →
        c ∉ ((startGame createDeck 0 g0).players.getD j default).hand) ∧
    ((((startGame createDeck 0 g0).players.map (fun p => p.hand)).flatten ++
      (startGame createDeck 0 g0).deck).Perm createDeck) ∧
    (createDeck.length = 40 ∧ createDeck.Nodup) ∧
    (∃ i, i < (startGame createDeck 0 g0).players.length ∧
      (startGame createDeck 0 g0).trumpCard ∈
        ((startGame createDeck 0 g0).players.getD i default).hand ∧
      ∀ j, j < (startGame createDeck 0 g0).players.length → j ≠ i →
        (startGame createDeck 0 g0).trumpCard ∉
          ((startGame createDeck 0 g0).players.getD j default).hand) :=
  claim_C3 g0 createDeck 0 (List.Perm.refl createDeck) (by decide) (by decide) (by decide)

lemma cons_filter_ne_perm (card : Card) :
    ∀ (l : List Card), l.Nodup → card ∈ l →
      (card :: l.filter (fun c => c != card)).Perm l := by
  intro l
  induction l with
  | nil => intro _ h; cases h
  | cons a l ih =>
      intro hnd hmem
      rcases List.mem_cons.mp hmem with heq | hmem'
      · subst heq
        have hfl : (card :: l).filter (fun c => c != card) =
            l.filter (fun c => c != card) := by
          simp [List.filter_cons]
        have hll : l.filter (fun c => c != card) = l := by
          apply List.filter_eq_self.mpr
          intro c hc
          have hne : c ≠ card := fun hcon => (List.nodup_cons.mp hnd).1 (hcon ▸ hc)
          simpa using hne
        rw [hfl, hll]
      · have hfl : (a :: l).filter (fun c => c != card) =
            a :: l.filter (fun c => c != card) := by
          have hne : a ≠ card := fun hcon =>
            (List.nodup_cons.mp hnd).1 (hcon ▸ hmem')
          simp [List.filter_cons, hne]
        rw [hfl]
        refine (List.Perm.swap a card _).trans ?_
        exact (ih (List.nodup_cons.mp hnd).2 hmem').cons a

lemma nodup_of_mem_flatten {L : List (List Card)} {l : List Card}
    (hm : l ∈ L) (hnd : L.flatten.Nodup) : l.Nodup :=
  hnd.sublist (List.sublist_flatten_of_mem hm)

lemma findIndexFrom_shift {α : Type} (p : α → Bool) :
    ∀ (l : List α) (i : Nat),
      findIndexFrom p l i = (findIndexFrom p l 0).map (fun j => j + i) := by
  intro l
  induction l with
  | nil => intro i; rfl
  | cons x xs ih =>
      intro i
      simp only [findIndexFrom]
      by_cases hx : p x
      · rw [if_pos hx, if_pos hx]; simp
      · rw [if_neg hx, if_neg hx, ih (i + 1), ih 1, Option.map_map]
        congr 1
        funext j
        simp [Function.comp]
        omega

lemma jsFindIndex_cons {α : Type} (p : α → Bool) (x : α) (xs : List α) :
    jsFindIndex p (x :: xs) =
      if p x then some 0 else (jsFindIndex p xs).map (fun j => j + 1) := by
  unfold jsFindIndex
  simp only [findIndexFrom]
  by_cases hx : p x
  · rw [if_pos hx, if_pos hx]
  · rw [if_neg hx, if_neg hx, findIndexFrom_shift]

lemma jsFindIndex_some {α : Type} (p : α → Bool) (d : α) :
    ∀ (l : List α) (k : Nat), jsFindIndex p l = some k →
      k < l.length ∧ p (l.getD k d) = true := by
  intro l
  induction l with
  | nil => intro k h; cases h
  | cons x xs ih =>
      intro k h
      rw [jsFindIndex_cons] at h
      by_cases hx : p x
      · rw [if_pos hx] at h
        cases h
        exact ⟨Nat.succ_pos _, hx⟩
      · rw [if_neg hx] at h
        rcases Option.map_eq_some'.mp h with ⟨j, hj, rfl⟩
        obtain ⟨hjl, hjp⟩ := ih j hj
        exact ⟨by simpa using Nat.succ_lt_succ hjl, hjp⟩

lemma jsFindIndex_id_map (f : Player → Player) (hf : ∀ p, (f p).id = p.id)
    (s : String) :
    ∀ (l : List Player),
      jsFindIndex (fun p => p.id == s) (l.map f) =
        jsFindIndex (fun p => p.id == s) l := by
  intro l
  induction l with
  | nil => rfl
  | cons x xs ih =>
      rw [List.map_cons, jsFindIndex_cons, jsFindIndex_cons, hf, ih]

lemma map_proj_of_preserve {γ : Type} (f : Player → Player) (proj : Player → γ)
    (hf : ∀ p, proj (f p) = proj p) (l : List Player) :
    (l.map f).map proj = l.map proj := by
  rw [List.map_map]
  exact List.map_congr_left (fun a _ => hf a)

lemma getD_map_player (f : Player → Player) (ps : List Player) (i : Nat)
    (hi : i < ps.length) :
    (ps.map f).getD i default = f (ps.getD i default) := by
  rw [List.getD_eq_getElem _ _ (by simpa using hi), List.getD_eq_getElem _ _ hi,
      List.getElem_map]

lemma flatten_map_update (f : Player → Player) (proj : Player → List Card)
    (id0 : String) (hne : ∀ p, p.id ≠ id0 → f p = p) :
    ∀ (players : List Player) (w : Player), w ∈ players → w.id = id0 →
      (players.map (fun p => p.id)).Nodup →
      ∀ (M M' : Multiset Card),
        (proj (f w) : Multiset Card) + M = (proj w : Multiset Card) + M' →
        (((players.map f).map proj).flatten : Multiset Card) + M =
          ((players.map proj).flatten : Multiset Card) + M' := by
  intro players
  induction players with
  | nil => intro w hw; cases hw
  | cons p ps ih =>
      intro w hw hwid hnd M M' hupd
      rw [List.map_cons] at hnd
      have hnd' := List.nodup_cons.mp hnd
      rcases List.mem_cons.mp hw with heq | hw'
      · subst heq
        have hps : ps.map f = ps := by
          have hall : ∀ q ∈ ps, f q = q := by
            intro q hq
            apply hne
            intro hcon
            have hmm : q.id ∈ ps.map (fun r => r.id) := List.mem_map_of_mem _ hq
            rw [hcon, ← hwid] at hmm
            exact hnd'.1 hmm
          calc ps.map f = ps.map id := List.map_congr_left hall
            _ = ps := List.map_id ps
        rw [List.map_cons, List.map_cons, List.map_cons, List.flatten_cons,
            List.flatten_cons, hps]
        rw [← Multiset.coe_add, ← Multiset.coe_add]
        rw [add_right_comm _ _ M, add_right_comm _ _ M', hupd]
      · have hpid : p.id ≠ id0 := by
          intro hcon
          apply hnd'.1
          have hmm : w.id ∈ ps.map (fun r => r.id) := List.mem_map_of_mem _ hw'
          rw [hwid, ← hcon] at hmm
          exact hmm
        rw [List.map_cons, List.map_cons, List.map_cons, List.flatten_cons,
            List.flatten_cons, hne p hpid]
        rw [← Multiset.coe_add, ← Multiset.coe_add]
        have hrec := ih w hw' hwid hnd'.2 M M' hupd
        rw [add_assoc, add_assoc, hrec]

lemma allCardsFull_coe (g : GameState) :
    (allCardsFull g : Multiset Card) =
      ((g.players.map (fun p => p.hand)).flatten : Multiset Card) +
      (g.table.map (fun t => t.card) : Multiset Card) +
      (g.deck : Multiset Card) +
      ((g.players.map (fun p => p.capturedCards)).flatten : Multiset Card) := by
  unfold allCardsFull coreCards
  rw [← Multiset.coe_add, ← Multiset.coe_add, ← Multiset.coe_add]

lemma startGame_table (shuffled : List Card) (trumpIdx : Nat) (g : GameState)
    (h2 : 2 ≤ g.players.length) (h4 : g.players.length ≤ 4) :
    (startGame shuffled trumpIdx g).table = [] := by
  rw [startGame_eq _ _ _ (by omega)]

lemma startGame_turn (shuffled : List Card) (trumpIdx : Nat) (g : GameState)
    (h2 : 2 ≤ g.players.length) (h4 : g.players.length ≤ 4) :
    (startGame shuffled trumpIdx g).turn = 0 := by
  rw [startGame_eq _ _ _ (by omega)]

lemma startGame_ids (shuffled : List Card) (trumpIdx : Nat) (g : GameState)
    (h2 : 2 ≤ g.players.length) (h4 : g.players.length ≤ 4) :
    (startGame shuffled trumpIdx g).players.map (fun p => p.id) =
      g.players.map (fun p => p.id) := by
  rw [startGame_eq _ _ _ (by omega)]
  dsimp only
  exact mapWithIndexFrom_map_proj
    (fun index player =>
      { player with
          hand := (dealLoop shuffled g.players.length (g.players.length * 10)).getD index [],
          score := 0, capturedCards := [] })
    (fun p => p.id) (fun i p => rfl) g.players 0

lemma startGame_captured (shuffled : List Card) (trumpIdx : Nat) (g : GameState)
    (h2 : 2 ≤ g.players.length) (h4 : g.players.length ≤ 4) :
    (startGame shuffled trumpIdx g).players.map (fun p => p.capturedCards) =
      List.replicate g.players.length [] := by
  rw [startGame_eq _ _ _ (by omega)]
  dsimp only
  exact mapWithIndexFrom_map_const
    (fun index player =>
      { player with
          hand := (dealLoop shuffled g.players.length (g.players.length * 10)).getD index [],
          score := 0, capturedCards := [] })
    (fun p => p.capturedCards) [] (fun i p => rfl) g.players 0

lemma startGame_core_perm (shuffled : List Card) (trumpIdx : Nat) (g : GameState)
    (hperm : shuffled.Perm createDeck)
    (h2 : 2 ≤ g.players.length) (h4 : g.players.length ≤ 4) :
    ((((startGame shuffled trumpIdx g).players.map (fun p => p.hand)).flatten) ++
      (startGame shuffled trumpIdx g).deck).Perm createDeck := by
  have hlen40 : shuffled.length = 40 := by rw [hperm.length_eq]; decide
  have hflat : (((startGame shuffled trumpIdx g).players.map (fun p => p.hand)).flatten).Perm
      (shuffled.take (g.players.length * 10)) := by
    rw [startGame_hands shuffled trumpIdx g h2 h4]
    exact hands_flatten_perm shuffled g.players.length hlen40 (by omega)
  refine (hflat.append (List.Perm.refl (startGame shuffled trumpIdx g).deck)).trans ?_
  rw [startGame_deck shuffled trumpIdx g h2 h4, List.take_append_drop]
  exact hperm

lemma resolveTrick_noop (g : GameState) (h : g.table.length ≠ g.players.length) :
    resolveTrick g = g := by
  simp only [resolveTrick]
  rw [if_pos h]

/-- The conserved shape of a reachable state: 2–4 players with distinct
ids, and the multiset of all card tokens across hands, table, deck and
captured piles is exactly the 40-card deck. -/
def BalancedState (g : GameState) : Prop :=
  2 ≤ g.players.length ∧ (g.players.map (fun p => p.id)).Nodup ∧
  (allCardsFull g : Multiset Card) = (createDeck : Multiset Card)

lemma balanced_startGame (shuffled : List Card) (trumpIdx : Nat) (g : GameState)
    (hperm : shuffled.Perm createDeck)
    (h2 : 2 ≤ g.players.length) (h4 : g.players.length ≤ 4)
    (hids : (g.players.map (fun p => p.id)).Nodup) :
    BalancedState (startGame shuffled trumpIdx g) := by
  refine ⟨?_, ?_, ?_⟩
  · rw [startGame_players_length _ _ _ h2 h4]; exact h2
  · rw [startGame_ids _ _ _ h2 h4]; exact hids
  · rw [allCardsFull_coe, startGame_table _ _ _ h2 h4, startGame_captured _ _ _ h2 h4]
    rw [List.map_nil, List.flatten_replicate_nil, Multiset.coe_nil, add_zero, add_zero,
        Multiset.coe_add, Multiset.coe_eq_coe]
    exact startGame_core_perm shuffled trumpIdx g hperm h2 h4

lemma balanced_playCard (g : GameState) (pid : String) (card : Card)
    (hb : BalancedState g) : BalancedState (playCard g pid card) := by
  obtain ⟨ihn, ihids, ihcards⟩ := hb
  by_cases hs : g.isGameStarted = false
  · rw [playCard_not_started g pid card hs]; exact ⟨ihn, ihids, ihcards⟩
  rcases hfi : jsFindIndex (fun p => p.id == pid) g.players with - | idx
  · rw [playCard_no_index g pid card hfi]; exact ⟨ihn, ihids, ihcards⟩
  by_cases hidx : idx = g.turn
  case neg =>
    rw [playCard_wrong_turn g pid card idx hfi hidx]; exact ⟨ihn, ihids, ihcards⟩
  subst hidx
  by_cases hhand : card ∈ (g.players.getD g.turn default).hand
  case neg =>
    rw [playCard_not_in_hand g pid card hfi hhand]; exact ⟨ihn, ihids, ihcards⟩
  by_cases hlead : (g.roundNumber = 1 ∧ g.table.length = 0 ∧
      (∃ c ∈ (g.players.getD g.turn default).hand,
        getCardSuit c = getTrumpSuit g.trumpCard) ∧
      ¬getCardSuit card = getTrumpSuit g.trumpCard)
  · rw [playCard_lead_reject g pid card hfi hhand hlead]; exact ⟨ihn, ihids, ihcards⟩
  by_cases hfollow : (0 < g.table.length ∧
      (∃ c ∈ (g.players.getD g.turn default).hand,
        getCardSuit c = getCardSuit (g.table.getD 0 default).card) ∧
      ¬getCardSuit card = getCardSuit (g.table.getD 0 default).card)
  · rw [playCard_follow_reject g pid card hfi hhand hlead hfollow]
    exact ⟨ihn, ihids, ihcards⟩
  have hstart : g.isGameStarted = true := by
    revert hs; cases g.isGameStarted <;> simp
  rw [playCard_accepted g pid card hstart hfi hhand hlead hfollow]
  have hfpres : ∀ p : Player,
      ((fun q : Player => if q.id = pid then
        { q with hand := q.hand.filter (fun c => c != card) } else q) p).id = p.id := by
    intro p; by_cases h : p.id = pid <;> simp [h]
  have hcpres : ∀ p : Player,
      ((fun q : Player => if q.id = pid then
        { q with hand := q.hand.filter (fun c => c != card) } else q) p).capturedCards =
        p.capturedCards := by
    intro p; by_cases h : p.id = pid <;> simp [h]
  refine ⟨?_, ?_, ?_⟩
  · dsimp only
    rw [List.length_map]
    exact ihn
  · dsimp only
    rw [map_proj_of_preserve _ (fun p => p.id) hfpres g.players]
    exact ihids
  · obtain ⟨hlt, hpred⟩ := jsFindIndex_some (fun p => p.id == pid) default g.players g.turn hfi
    have hwid : (g.players.getD g.turn default).id = pid := by simpa using hpred
    have hwmem : g.players.getD g.turn default ∈ g.players := by
      rw [List.getD_eq_getElem _ _ hlt]; exact List.getElem_mem _
    have hpermC : (allCardsFull g).Perm createDeck := Multiset.coe_eq_coe.mp ihcards
    have hndall : (allCardsFull g).Nodup := hpermC.nodup_iff.mpr (by decide)
    have hndF : ((g.players.map (fun p => p.hand)).flatten).Nodup := by
      unfold allCardsFull coreCards at hndall
      exact hndall.of_append_left.of_append_left.of_append_left
    have hndw : (g.players.getD g.turn default).hand.Nodup :=
      nodup_of_mem_flatten (List.mem_map_of_mem _ hwmem) hndF
    have hupd : (((g.players.getD g.turn default).hand.filter
        (fun c => c != card) : List Card) : Multiset Card) + {card} =
        ((g.players.getD g.turn default).hand : Multiset Card) + 0 := by
      rw [add_zero]
      have hp := cons_filter_ne_perm card (g.players.getD g.turn default).hand hndw hhand
      have hcoe := Multiset.coe_eq_coe.mpr hp
      rw [← Multiset.cons_coe, ← Multiset.singleton_add, add_comm] at hcoe
      exact hcoe
    have hfw : (fun q : Player => if q.id = pid then
        { q with hand := q.hand.filter (fun c => c != card) } else q)
        (g.players.getD g.turn default) =
        { (g.players.getD g.turn default) with
            hand := (g.players.getD g.turn default).hand.filter (fun c => c != card) } := by
      dsimp only
      rw [if_pos hwid]
    have hkey := flatten_map_update
      (fun q : Player => if q.id = pid then
        { q with hand := q.hand.filter (fun c => c != card) } else q)
      (fun p => p.hand) pid
      (fun p hp => by simp [if_neg hp])
      g.players (g.players.getD g.turn default) hwmem hwid ihids {card} 0
      (by rw [hfw]; exact hupd)
    have ihm := ihcards
    rw [allCardsFull_coe] at ihm
    rw [allCardsFull_coe]
    dsimp only
    rw [List.map_append,
        map_proj_of_preserve _ (fun p => p.capturedCards) hcpres g.players]
    rw [show (List.map (fun t => t.card)
        [({ playerId := pid, nickname := (g.players.getD g.turn default).nickname,
            card := card } : TablePlay)]) = [card] from rfl]
    rw [← Multiset.coe_add, Multiset.coe_singleton]
    rw [show ∀ (a b c d e : Multiset Card), a + (b + c) + d + e = a + c + b + d + e from
      fun a b c d e => by abel]
    rw [hkey, add_zero]
    exact ihm

lemma emod_toNat_lt (x : Int) (n : Nat) (hn : 0 < n) : (x % (n : Int)).toNat < n := by
  have hne : (n : Int) ≠ 0 := by exact_mod_cast (by omega : n ≠ 0)
  have h0 : 0 ≤ x % (n : Int) := Int.emod_nonneg x hne
  have hlt : x % (n : Int) < (n : Int) := Int.emod_lt_of_pos x (by exact_mod_cast hn)
  omega

lemma balanced_resolve_core (g : GameState) (widx roundPoints : Nat)
    (capOpp : String → Bool) (hwidx : widx < g.players.length)
    (ihn : 2 ≤ g.players.length)
    (ihids : (g.players.map (fun p => p.id)).Nodup)
    (ihcards : (allCardsFull g : Multiset Card) = (createDeck : Multiset Card)) :
    BalancedState
      { g with
          players := g.players.map (fun p =>
            if p.id = (g.players.getD widx default).id then
              { p with score := p.score + roundPoints,
                       capturedCards := p.capturedCards ++ g.table.map (fun play => play.card) }
            else p),
          table := [],
          turn := widx,
          roundNumber := g.roundNumber + 1,
          lastTrickWinnerId := some (g.players.getD widx default).id,
          lastTrickCards := some g.table,
          capturedOppTrump7ByPlayerId := capOpp } := by
  have hidpres : ∀ p : Player,
      ((fun q : Player => if q.id = (g.players.getD widx default).id then
        { q with score := q.score + roundPoints,
                 capturedCards := q.capturedCards ++ g.table.map (fun play => play.card) }
        else q) p).id = p.id := by
    intro p
    by_cases h : p.id = (g.players.getD widx default).id
    · dsimp only; rw [if_pos h]
    · dsimp only; rw [if_neg h]
  have hhandpres : ∀ p : Player,
      ((fun q : Player => if q.id = (g.players.getD widx default).id then
        { q with score := q.score + roundPoints,
                 capturedCards := q.capturedCards ++ g.table.map (fun play => play.card) }
        else q) p).hand = p.hand := by
    intro p
    by_cases h : p.id = (g.players.getD widx default).id
    · dsimp only; rw [if_pos h]
    · dsimp only; rw [if_neg h]
  have hwinmem : g.players.getD widx default ∈ g.players := by
    rw [List.getD_eq_getElem _ _ hwidx]; exact List.getElem_mem _
  have hfw : (fun q : Player => if q.id = (g.players.getD widx default).id then
      { q with score := q.score + roundPoints,
               capturedCards := q.capturedCards ++ g.table.map (fun play => play.card) }
      else q) (g.players.getD widx default) =
      { (g.players.getD widx default) with
          score := (g.players.getD widx default).score + roundPoints,
          capturedCards := (g.players.getD widx default).capturedCards ++
            g.table.map (fun play => play.card) } := by
    dsimp only
    rw [if_pos rfl]
  have hupd : (((g.players.getD widx default).capturedCards ++
      g.table.map (fun play => play.card) : List Card) : Multiset Card) + 0 =
      ((g.players.getD widx default).capturedCards : Multiset Card) +
        (g.table.map (fun t => t.card) : Multiset Card) := by
    rw [add_zero, ← Multiset.coe_add]
  have hkey := flatten_map_update
    (fun q : Player => if q.id = (g.players.getD widx default).id then
      { q with score := q.score + roundPoints,
               capturedCards := q.capturedCards ++ g.table.map (fun play => play.card) }
      else q)
    (fun p => p.capturedCards) (g.players.getD widx default).id
    (fun p hp => by dsimp only; rw [if_neg hp])
    g.players (g.players.getD widx default) hwinmem rfl ihids
    0 (g.table.map (fun t => t.card))
    (by rw [hfw]; exact hupd)
  have ihm := ihcards
  rw [allCardsFull_coe] at ihm
  refine ⟨?_, ?_, ?_⟩
  · dsimp only
    rw [List.length_map]
    exact ihn
  · dsimp only
    rw [map_proj_of_preserve _ (fun p => p.id) hidpres]
    exact ihids
  · rw [allCardsFull_coe]
    dsimp only
    rw [map_proj_of_preserve _ (fun p => p.hand) hhandpres]
    rw [List.map_nil, Multiset.coe_nil]
    rw [show ∀ (a b c : Multiset Card), a + 0 + b + c = (c + 0) + a + b from
      fun a b c => by abel]
    rw [hkey]
    rw [show ∀ (a b c t : Multiset Card), (c + t) + a + b = a + t + b + c from
      fun a b c t => by abel]
    exact ihm

lemma balanced_resolveTrick (g : GameState) (hb : BalancedState g) :
    BalancedState (resolveTrick g) := by
  obtain ⟨ihn, ihids, ihcards⟩ := hb
  by_cases hfull : g.table.length = g.players.length
  case neg => rw [resolveTrick_noop g hfull]; exact ⟨ihn, ihids, ihcards⟩
  obtain ⟨w, hw⟩ := determineRoundWinner_isSome g (by omega) hfull
  rw [resolveTrick_eq g w hfull hw]
  dsimp only
  exact balanced_resolve_core g _ _ _ (emod_toNat_lt _ _ (by omega)) ihn ihids ihcards

lemma reachable_balanced (g : GameState) (hg : Reachable g) : BalancedState g := by
  induction hg with
  | start gb shuffled trumpIdx hperm h2 h4 hids hidx =>
      exact balanced_startGame shuffled trumpIdx gb hperm h2 h4 hids
  | play g pid card hg ih => exact balanced_playCard g pid card ih
  | resolve g hg ih => exact balanced_resolveTrick g ih

/-- C8 counterexample: after the first resolved trick of the fixture game
the hands hold 18 cards, the table 0 and the deck 20 — the captured pile
has absorbed the 2 played cards, so hands + table + deck is 38, not 40. -/
theorem claim_C8_counterexample :
    Reachable gBad ∧
      (gBad.players.map (fun p => p.hand.length)).sum + gBad.table.length +
        gBad.deck.length ≠ 40 :=
  ⟨Reachable.resolve gFull
    (Reachable.play gMid "b" ['2', 'S']
      (Reachable.play gStart "a" ['A', 'S']
        (Reachable.start g0 createDeck 0 (List.Perm.refl createDeck)
          (by decide) (by decide) (by decide) (by decide)))),
   by decide⟩

/-- C8 as amended: during a hand the conserved total is hands + table +
deck + captured piles = 40; the bare hands + table + deck total drops as
tricks are captured. -/
theorem claim_C8_amended (g : GameState) (hg : Reachable g) :
    ((g.players.map (fun p => p.hand.length)).sum + g.table.length + g.deck.length) +
      (g.players.map (fun p => p.capturedCards.length)).sum = 40 := by
  obtain ⟨-, -, hcards⟩ := reachable_balanced g hg
  have hperm : (allCardsFull g).Perm createDeck := Multiset.coe_eq_coe.mp hcards
  have hlen := hperm.length_eq
  rw [show createDeck.length = 40 from rfl] at hlen
  unfold allCardsFull coreCards at hlen
  simp only [List.length_append, List.length_flatten, List.length_map, List.map_map,
    Function.comp_def] at hlen
  omega

/-- C8 amended witness: at the post-trick fixture state the conserved total
is 18 + 0 + 20 + 2 = 40. -/
theorem claim_C8_amended_witness :
    ((gBad.players.map (fun p => p.hand.length)).sum + gBad.table.length +
      gBad.deck.length) +
      (gBad.players.map (fun p => p.capturedCards.length)).sum = 40 :=
  claim_C8_amended gBad
    (Reachable.resolve gFull
      (Reachable.play gMid "b" ['2', 'S']
        (Reachable.play gStart "a" ['A', 'S']
          (Reachable.start g0 createDeck 0 (List.Perm.refl createDeck)
            (by decide) (by decide) (by decide) (by decide)))))

/-- C10: in every reachable state no card token occurs twice across hands,
table and deck; consequently an accepted `playCard` — though it removes by
filtering out every occurrence of the played card — shrinks the acting
player's hand by exactly one card. -/
theorem claim_C10 (g : GameState) (hg : Reachable g) :
    ((g.players.map (fun p => p.hand)).flatten ++ g.table.map (fun t => t.card) ++
      g.deck).Nodup ∧
    (∀ pid card,
      g.isGameStarted = true →
      jsFindIndex (fun p => p.id == pid) g.players = some g.turn →
      card ∈ (g.players.getD g.turn default).hand →
      ¬(g.roundNumber = 1 ∧ g.table.length = 0 ∧
        (∃ c ∈ (g.players.getD g.turn default).hand,
          getCardSuit c = getTrumpSuit g.trumpCard) ∧
        ¬getCardSuit card = getTrumpSuit g.trumpCard) →
      ¬(0 < g.table.length ∧
        (∃ c ∈ (g.players.getD g.turn default).hand,
          getCardSuit c = getCardSuit (g.table.getD 0 default).card) ∧
        ¬getCardSuit card = getCardSuit (g.table.getD 0 default).card) →
      ((playCard g pid card).players.getD g.turn default).hand.length + 1 =
        (g.players.getD g.turn default).hand.length) := by
  obtain ⟨hn2, hids, hcards⟩ := reachable_balanced g hg
  have hperm : (allCardsFull g).Perm createDeck := Multiset.coe_eq_coe.mp hcards
  have hndall : (allCardsFull g).Nodup := hperm.nodup_iff.mpr (by decide)
  have hndcore : (coreCards g).Nodup := by
    unfold allCardsFull at hndall
    exact hndall.of_append_left
  refine ⟨hndcore, ?_⟩
  intro pid card hstart hfind hhand hlead hfollow
  obtain ⟨hlt, hpred⟩ := jsFindIndex_some (fun p => p.id == pid) default g.players g.turn hfind
  have hwid : (g.players.getD g.turn default).id = pid := by simpa using hpred
  have hwmem : g.players.getD g.turn default ∈ g.players := by
    rw [List.getD_eq_getElem _ _ hlt]; exact List.getElem_mem _
  have hndF : ((g.players.map (fun p => p.hand)).flatten).Nodup := by
    unfold coreCards at hndcore
    exact hndcore.of_append_left.of_append_left
  have hndw : (g.players.getD g.turn default).hand.Nodup :=
    nodup_of_mem_flatten (List.mem_map_of_mem _ hwmem) hndF
  rw [playCard_accepted g pid card hstart hfind hhand hlead hfollow]
  dsimp only
  rw [getD_map_player _ g.players g.turn hlt]
  rw [if_pos hwid]
  have hp := cons_filter_ne_perm card (g.players.getD g.turn default).hand hndw hhand
  have hplen := hp.length_eq
  simpa using hplen

/-- C10 witness: in the freshly dealt fixture game the global card list is
duplicate-free and the accepted trump lead AS shrinks player "a"'s hand
from 10 to 9 cards. -/
theorem claim_C10_witness :
    ((gStart.players.map (fun p => p.hand)).flatten ++
      gStart.table.map (fun t => t.card) ++ gStart.deck).Nodup ∧
    ((playCard gStart "a" ['A', 'S']).players.getD gStart.turn default).hand.length + 1 =
      (gStart.players.getD gStart.turn default).hand.length := by
  have h := claim_C10 gStart
    (Reachable.start g0 createDeck 0 (List.Perm.refl createDeck)
      (by decide) (by decide) (by decide) (by decide))
  exact ⟨h.1, h.2 "a" ['A', 'S'] (by decide) (by decide) (by decide) (by decide) (by decide)⟩

lemma getD_append_left (l l' : List TablePlay) (k : Nat) (hk : k < l.length)
    (d : TablePlay) : (l ++ l').getD k d = l.getD k d := by
  rw [List.getD_eq_getElem _ _ (by rw [List.length_append]; omega),
      List.getD_eq_getElem _ _ hk]
  exact List.getElem_append_left hk

lemma getD_concat_length (l : List TablePlay) (x d : TablePlay) :
    (l ++ [x]).getD l.length d = x := by
  rw [List.getD_eq_getElem _ _ (by rw [List.length_append]; simp)]
  exact List.getElem_concat_length l x _ rfl _

/-- The per-trick seat bookkeeping preserved by the disciplined caller
protocol: the turn is in range, the table never exceeds the player count,
and the k-th table entry was played from the seat `(leader + k) mod n`
where the leader seat is `turn + n - |table|` — each entry's playerId
resolves by `findIndex` to exactly that seat. -/
def TableInv (g : GameState) : Prop :=
  g.turn < g.players.length ∧ g.table.length ≤ g.players.length ∧
  ∀ k, k < g.table.length →
    jsFindIndex (fun p => p.id == (g.table.getD k default).playerId) g.players =
      some ((g.turn + g.players.length - g.table.length + k) % g.players.length)

lemma reachableD_tableInv (g : GameState) (hg : ReachableD g) : TableInv g := by
  induction hg with
  | start gb shuffled trumpIdx hperm h2 h4 hids hidx =>
      refine ⟨?_, ?_, ?_⟩
      · rw [startGame_turn _ _ _ h2 h4, startGame_players_length _ _ _ h2 h4]
        omega
      · rw [startGame_table _ _ _ h2 h4]
        simp
      · intro k hk
        rw [startGame_table _ _ _ h2 h4] at hk
        cases hk
  | play g pid card hg hlt ih =>
      obtain ⟨ihturn, ihlen, ihseats⟩ := ih
      by_cases hs : g.isGameStarted = false
      · rw [playCard_not_started g pid card hs]; exact ⟨ihturn, ihlen, ihseats⟩
      rcases hfi : jsFindIndex (fun p => p.id == pid) g.players with - | idx
      · rw [playCard_no_index g pid card hfi]; exact ⟨ihturn, ihlen, ihseats⟩
      by_cases hidx : idx = g.turn
      case neg =>
        rw [playCard_wrong_turn g pid card idx hfi hidx]; exact ⟨ihturn, ihlen, ihseats⟩
      subst hidx
      by_cases hhand : card ∈ (g.players.getD g.turn default).hand
      case neg =>
        rw [playCard_not_in_hand g pid card hfi hhand]; exact ⟨ihturn, ihlen, ihseats⟩
      by_cases hlead : (g.roundNumber = 1 ∧ g.table.length = 0 ∧
          (∃ c ∈ (g.players.getD g.turn default).hand,
            getCardSuit c = getTrumpSuit g.trumpCard) ∧
          ¬getCardSuit card = getTrumpSuit g.trumpCard)
      · rw [playCard_lead_reject g pid card hfi hhand hlead]
        exact ⟨ihturn, ihlen, ihseats⟩
      by_cases hfollow : (0 < g.table.length ∧
          (∃ c ∈ (g.players.getD g.turn default).hand,
            getCardSuit c = getCardSuit (g.table.getD 0 default).card) ∧
          ¬getCardSuit card = getCardSuit (g.table.getD 0 default).card)
      · rw [playCard_follow_reject g pid card hfi hhand hlead hfollow]
        exact ⟨ihturn, ihlen, ihseats⟩
      have hstart : g.isGameStarted = true := by
        revert hs; cases g.isGameStarted <;> simp
      rw [playCard_accepted g pid card hstart hfi hhand hlead hfollow]
      have hfpres : ∀ p : Player,
          ((fun q : Player => if q.id = pid then
            { q with hand := q.hand.filter (fun c => c != card) } else q) p).id = p.id := by
        intro p; by_cases h : p.id = pid <;> simp [h]
      refine ⟨?_, ?_, ?_⟩
      · dsimp only
        rw [List.length_map]
        exact Nat.mod_lt _ (by omega)
      · dsimp only
        rw [List.length_map, List.length_append]
        simp
        omega
      · intro k hk
        dsimp only at hk ⊢
        rw [List.length_append, List.length_singleton] at hk
        rw [List.length_map, List.length_append, List.length_singleton]
        rw [jsFindIndex_id_map _ hfpres _ g.players]
        by_cases hkl : k < g.table.length
        · rw [getD_append_left _ _ _ hkl, ihseats k hkl]
          congr 1
          have e1 : (g.turn + 1) % g.players.length + g.players.length -
              (g.table.length + 1) + k =
              (g.turn + 1) % g.players.length +
                (g.players.length - (g.table.length + 1) + k) := by omega
          rw [e1, Nat.mod_add_mod]
          congr 1
          omega
        · have hk0 : k = g.table.length := by omega
          subst hk0
          rw [getD_concat_length]
          dsimp only
          rw [hfi]
          congr 1
          have e1 : (g.turn + 1) % g.players.length + g.players.length -
              (g.table.length + 1) + g.table.length =
              (g.turn + 1) % g.players.length + (g.players.length - 1) := by omega
          rw [e1, Nat.mod_add_mod]
          have e2 : g.turn + 1 + (g.players.length - 1) = g.turn + g.players.length := by
            omega
          rw [e2, Nat.add_mod_right, Nat.mod_eq_of_lt ihturn]
  | resolve g hg ih =>
      obtain ⟨ihturn, ihlen, ihseats⟩ := ih
      by_cases hfull : g.table.length = g.players.length
      case neg => rw [resolveTrick_noop g hfull]; exact ⟨ihturn, ihlen, ihseats⟩
      obtain ⟨w, hw⟩ := determineRoundWinner_isSome g (by omega) hfull
      rw [resolveTrick_eq g w hfull hw]
      dsimp only
      refine ⟨?_, ?_, ?_⟩
      · rw [List.length_map]
        exact emod_toNat_lt _ _ (by omega)
      · simp
      · intro k hk
        simp at hk

/-- C9 counterexample: `playCard` accepts a play onto an already-full
staged trick — after the 2-card trick is staged, player "a" (whose turn
index rolled over) legally plays a third card, making the table length 3
with two entries for "a". -/
theorem claim_C9_counterexample :
    Reachable gOver ∧
      ¬(gOver.table.length ≤ gOver.players.length ∧
        (gOver.table.map (fun t => t.playerId)).Nodup) :=
  ⟨Reachable.play gFull "a" ['3', 'S']
    (Reachable.play gMid "b" ['2', 'S']
      (Reachable.play gStart "a" ['A', 'S']
        (Reachable.start g0 createDeck 0 (List.Perm.refl createDeck)
          (by decide) (by decide) (by decide) (by decide)))),
   by decide⟩

/-- C9 as amended: under the caller discipline that every full trick is
resolved before the next play (`ReachableD`), the table never exceeds the
player count and holds at most one entry per playerId. -/
theorem claim_C9_amended (g : GameState) (hg : ReachableD g) :
    g.table.length ≤ g.players.length ∧
      (g.table.map (fun t => t.playerId)).Nodup := by
  obtain ⟨hturn, hlen, hseats⟩ := reachableD_tableInv g hg
  refine ⟨hlen, ?_⟩
  show List.Pairwise (fun a b => a ≠ b) (g.table.map (fun t => t.playerId))
  apply List.pairwise_iff_getElem.mpr
  intro i j hi hj hij
  rw [List.length_map] at hi hj
  rw [List.getElem_map, List.getElem_map]
  intro heq
  have hgi : g.table[i].playerId = (g.table.getD i default).playerId := by
    rw [List.getD_eq_getElem _ _ hi]
  have hgj : g.table[j].playerId = (g.table.getD j default).playerId := by
    rw [List.getD_eq_getElem _ _ hj]
  have hsi := hseats i hi
  have hsj := hseats j hj
  have heq2 : (g.table.getD i default).playerId = (g.table.getD j default).playerId :=
    hgi.symm.trans (heq.trans hgj)
  rw [← heq2] at hsj
  rw [hsi] at hsj
  have hEe : ((g.turn + g.players.length - g.table.length + i) % g.players.length) =
      ((g.turn + g.players.length - g.table.length + j) % g.players.length) :=
    Option.some.inj hsj
  have hdvd : g.players.length ∣
      (g.turn + g.players.length - g.table.length + j) -
        (g.turn + g.players.length - g.table.length + i) :=
    (Nat.modEq_iff_dvd' (by omega)).mp hEe
  have hsub : (g.turn + g.players.length - g.table.length + j) -
      (g.turn + g.players.length - g.table.length + i) = j - i := by omega
  rw [hsub] at hdvd
  have := Nat.le_of_dvd (by omega) hdvd
  omega

/-- C9 amended witness: the staged full trick of the fixture game is
reachable under the disciplined protocol and satisfies both bounds. -/
theorem claim_C9_amended_witness :
    gFull.table.length ≤ gFull.players.length ∧
      (gFull.table.map (fun t => t.playerId)).Nodup :=
  claim_C9_amended gFull
    (ReachableD.play gMid "b" ['2', 'S']
      (ReachableD.play gStart "a" ['A', 'S']
        (ReachableD.start g0 createDeck 0 (List.Perm.refl createDeck)
          (by decide) (by decide) (by decide) (by decide))
        (by decide))
      (by decide))
